import Mathlib

/-!
# netcap: IP profile store and channel writer

A shallow embedding of `decoder/ipProfile.go` (`getIPProfile`) and
`io/chanWriter.go` (`NewChanWriter`, `ChanWriter.Write`, `ChanProtoWriter`),
followed by the properties established about them.

Conventions of the embedding:

* a Go `map[string]V` is an association list with at most one entry per key
  (`mapGet`, `mapSet`); a value reached through a pointer stored in a map is
  written back under its key when it is mutated;
* `uint64` fields are naturals reduced modulo `2 ^ 64` after every addition,
  `int64` fields are integers wrapped into the signed 64-bit range;
* everything `getIPProfile` reads off a packet through another package
  (`gopacket`, `tlsx`, `ja3`, `dpi`) is a field of `Packet`; the resolvers are
  functions of an environment `Env`, and every resolver call is recorded in
  the `calls` log of the `World`.
-/

namespace Netcap

/-! ## Go maps keyed by strings -/

/-- Lookup `m[k]` with the comma-ok result as an option. -/
def mapGet {V : Type} : List (String × V) → String → Option V
  | [], _ => none
  | (k', v) :: t, k => if k' = k then some v else mapGet t k

/-- Assignment `m[k] = v`: replaces the entry of `k` or adds one. -/
def mapSet {V : Type} : List (String × V) → String → V → List (String × V)
  | [], k, v => [(k, v)]
  | (k', v') :: t, k, v => if k' = k then (k', v) :: t else (k', v') :: mapSet t k v

/-- The keys of a map, in insertion order. -/
def mapKeys {V : Type} (m : List (String × V)) : List String :=
  m.map Prod.fst

/-! ## Machine integers -/

/-- Addition on `uint64` (also `atomic.AddUint64`). -/
def addUint64 (a b : Nat) : Nat :=
  (a + b) % 2 ^ 64

/-- Conversion `uint64(n)` of a Go `int`. -/
def toUint64 (n : Nat) : Nat :=
  n % 2 ^ 64

/-- Increment `x++` on `int64`. -/
def incInt64 (x : Int) : Int :=
  (x + 1 + 2 ^ 63) % 2 ^ 64 - 2 ^ 63

/-- The `int64` that an integer wraps to. -/
def wrapInt64 (x : Int) : Int :=
  (x + 2 ^ 63) % 2 ^ 64 - 2 ^ 63

/-! ## Data model -/

/-- The layer type of a transport layer, as far as `getIPProfile` tells them apart. -/
inductive LayerType where
  | LayerTypeTCP
  | LayerTypeUDP
  | LayerTypeOther
  deriving DecidableEq, Repr

/-- A transport layer `tl`: its `LayerType()` and the two endpoints of `TransportFlow()`. -/
structure TransportLayer where
  LayerType : LayerType
  Src : String
  Dst : String
  deriving DecidableEq, Repr

/-- The result of `tlsx.GetClientHelloBasic` when it is not nil. -/
structure ClientHello where
  SNI : String
  deriving DecidableEq, Repr

/-- One classifier result of `dpi.GetProtocols`. -/
structure DpiResult where
  detail : String
  deriving DecidableEq, Repr

/-- A `gopacket.Packet` seen through the calls `getIPProfile` makes on it. -/
structure Packet where
  /-- The value of `len(p.Data())`. -/
  DataLen : Nat
  /-- The value of `p.TransportLayer()`, `none` for nil. -/
  TransportLayer : Option TransportLayer
  /-- The value of `tlsx.GetClientHelloBasic(p)`, `none` for nil. -/
  GetClientHelloBasic : Option ClientHello
  /-- The value of `ja3.DigestHexPacket(p)`. -/
  DigestHexPacket : String
  /-- The value of `ja3.DigestHexPacketJa3s(p)`. -/
  DigestHexPacketJa3s : String
  /-- The value of `dpi.GetProtocols(p)`. -/
  GetProtocols : List (String × DpiResult)
  deriving DecidableEq, Repr

/-- Modelled from the spec: the declaration of `packetInfo.timestamp` and of the
two timestamp fields of `types.IPProfile` is not among the sources; a timestamp
is an integer and the zero value of the type is `0`. -/
abbrev Timestamp := Int

/-- The `packetInfo` handed to `getIPProfile`. -/
structure packetInfo where
  p : Packet
  timestamp : Timestamp
  deriving DecidableEq, Repr

/-- Modelled from the spec: `types.Port` is declared outside the sources; the
three counters are `uint64` (they are passed to `atomic.AddUint64`). -/
structure Port where
  NumTotal : Nat
  NumTCP : Nat
  NumUDP : Nat
  deriving DecidableEq, Repr

/-- Modelled from the spec: `types.Protocol` is declared outside the sources; a
packet count, taken as `uint64` like the counters of `types.Port`, plus the
detail supplied by the classifier. -/
structure Protocol where
  Packets : Nat
  detail : String
  deriving DecidableEq, Repr

/-- Modelled from the spec: `types.IPProfile` is declared outside the sources; the
fields are those `getIPProfile` fills in. `Bytes` is `uint64` (it is assigned
the `uint64` value `dataLen`), the values of `SNIs` are `int64`; `NumPackets`,
the packet counter, is taken as `int64` like the counts of `SNIs`. -/
structure IPProfile where
  Addr : String
  NumPackets : Int
  Geolocation : String
  DNSNames : List String
  TimestampFirst : Timestamp
  TimestampLast : Timestamp
  Ja3 : List (String × String)
  Protocols : List (String × Protocol)
  Bytes : Nat
  SrcPorts : List (String × Port)
  DstPorts : List (String × Port)
  SNIs : List (String × Int)
  deriving DecidableEq, Repr

/-- The collaborators `getIPProfile` calls, and the package variable `LocalDNS`. -/
structure Env where
  LocalDNS : Bool
  LookupGeolocation : String → String
  LookupDNSNameLocal : String → String
  LookupDNSNames : String → List String
  LookupJa3 : String → String
  NewProto : DpiResult → Protocol

/-- A call to one of the resolvers. -/
inductive Call where
  | LookupGeolocation (ipAddr : String)
  | LookupDNSNameLocal (ipAddr : String)
  | LookupDNSNames (ipAddr : String)
  | LookupJa3 (hash : String)
  deriving DecidableEq, Repr

/-- The package state: `IPProfiles.Items` and the resolver calls made so far. -/
structure World where
  Items : List (String × IPProfile)
  calls : List Call
  deriving DecidableEq, Repr

/-- The state at start-up: `IPProfiles` holds an empty map. -/
def World.init : World :=
  { Items := [], calls := [] }

/-! ## getIPProfile -/

/-- The value `dataLen := uint64(len(i.p.Data()))`. -/
def dataLenOf (i : packetInfo) : Nat :=
  toUint64 i.p.DataLen

/-- The fingerprint hash of a packet: the client digest, else the server digest
(lines 163-166 and 234-237). -/
def ja3HashOf (p : Packet) : String :=
  if p.DigestHexPacket = "" then p.DigestHexPacketJa3s else p.DigestHexPacket

/-- A fresh `&types.Port{NumTotal: dataLen}` followed by the TCP/UDP increment
(lines 124-131, 143-150, 209-217, 221-228). -/
def newPort (lt : LayerType) (dataLen : Nat) : Port :=
  let port : Port := { NumTotal := dataLen, NumTCP := 0, NumUDP := 0 }
  if lt = LayerType.LayerTypeTCP then { port with NumTCP := addUint64 port.NumTCP 1 }
  else if lt = LayerType.LayerTypeUDP then { port with NumUDP := addUint64 port.NumUDP 1 }
  else port

/-- The update of an existing port entry (lines 116-122 and 136-141). -/
def addToPort (port : Port) (lt : LayerType) (dataLen : Nat) : Port :=
  let port : Port := { port with NumTotal := addUint64 port.NumTotal dataLen }
  if lt = LayerType.LayerTypeTCP then { port with NumTCP := addUint64 port.NumTCP 1 }
  else if lt = LayerType.LayerTypeUDP then { port with NumUDP := addUint64 port.NumUDP 1 }
  else port

/-- The upsert of one port map on the hit path (lines 115-133 for the source
port, lines 135-152 for the destination port). -/
def updatePorts (ports : List (String × Port)) (key : String) (lt : LayerType)
    (dataLen : Nat) : List (String × Port) :=
  match mapGet ports key with
  | some port => mapSet ports key (addToPort port lt dataLen)
  | none => mapSet ports key (newPort lt dataLen)

/-- The loop over `dpi.GetProtocols(i.p)` on the hit path (lines 176-186). -/
def updateProtocols (E : Env) (protos : List (String × Protocol))
    (uniqueResults : List (String × DpiResult)) : List (String × Protocol) :=
  uniqueResults.foldl
    (fun m r =>
      match mapGet m r.1 with
      | some prot => mapSet m r.1 { prot with Packets := addUint64 prot.Packets 1 }
      | none => mapSet m r.1 (E.NewProto r.2))
    protos

/-- The hit path of `getIPProfile`, lines 103-190, on the profile found in the
store: the updated profile and the resolver calls made. -/
def updateProfile (E : Env) (p : IPProfile) (i : packetInfo) : IPProfile × List Call :=
  let dataLen := dataLenOf i
  let ja3Hash := ja3HashOf i.p
  ({ p with
      NumPackets := incInt64 p.NumPackets
      TimestampLast := i.timestamp
      Bytes := addUint64 p.Bytes dataLen
      SrcPorts :=
        match i.p.TransportLayer with
        | some tl => updatePorts p.SrcPorts tl.Src tl.LayerType dataLen
        | none => p.SrcPorts
      DstPorts :=
        match i.p.TransportLayer with
        | some tl => updatePorts p.DstPorts tl.Dst tl.LayerType dataLen
        | none => p.DstPorts
      SNIs :=
        match i.p.GetClientHelloBasic with
        | some ch =>
          if ch.SNI ≠ "" then
            mapSet p.SNIs ch.SNI (incInt64 ((mapGet p.SNIs ch.SNI).getD 0))
          else p.SNIs
        | none => p.SNIs
      Ja3 :=
        if ja3Hash ≠ "" then
          match mapGet p.Ja3 ja3Hash with
          | some _ => p.Ja3
          | none => mapSet p.Ja3 ja3Hash (E.LookupJa3 ja3Hash)
        else p.Ja3
      Protocols := updateProtocols E p.Protocols i.p.GetProtocols },
   if ja3Hash ≠ "" then
     match mapGet p.Ja3 ja3Hash with
     | some _ => []
     | none => [Call.LookupJa3 ja3Hash]
   else [])

/-- The miss path of `getIPProfile`, lines 194-278: the profile built for a new
address and the resolver calls made, in program order. -/
def newProfile (E : Env) (ipAddr : String) (i : packetInfo) : IPProfile × List Call :=
  let dataLen := dataLenOf i
  let ja3Hash := ja3HashOf i.p
  ({ Addr := ipAddr
     NumPackets := 1
     Geolocation := E.LookupGeolocation ipAddr
     DNSNames :=
       if E.LocalDNS then
         (if (E.LookupDNSNameLocal ipAddr).length ≠ 0 then [E.LookupDNSNameLocal ipAddr] else [])
       else E.LookupDNSNames ipAddr
     TimestampFirst := i.timestamp
     TimestampLast := 0
     Ja3 := if ja3Hash ≠ "" then mapSet [] ja3Hash (E.LookupJa3 ja3Hash) else []
     Protocols := i.p.GetProtocols.foldl (fun m r => mapSet m r.1 (E.NewProto r.2)) []
     Bytes := dataLen
     SrcPorts :=
       match i.p.TransportLayer with
       | some tl => mapSet [] tl.Src (newPort tl.LayerType dataLen)
       | none => []
     DstPorts :=
       match i.p.TransportLayer with
       | some tl => mapSet [] tl.Dst (newPort tl.LayerType dataLen)
       | none => []
     SNIs :=
       match i.p.GetClientHelloBasic with
       | some ch => mapSet [] ch.SNI 1
       | none => [] },
   [Call.LookupGeolocation ipAddr]
     ++ (if ja3Hash ≠ "" then [Call.LookupJa3 ja3Hash] else [])
     ++ [if E.LocalDNS then Call.LookupDNSNameLocal ipAddr else Call.LookupDNSNames ipAddr])

/-- The function `getIPProfile` run without interference from other callers:
the returned profile (`none` for nil) and the state afterwards. -/
def getIPProfile (E : Env) (w : World) (ipAddr : String) (i : packetInfo) :
    Option IPProfile × World :=
  if ipAddr = "" then (none, w)
  else
    match mapGet w.Items ipAddr with
    | some p =>
      (some (updateProfile E p i).1,
        { Items := mapSet w.Items ipAddr (updateProfile E p i).1
          calls := w.calls ++ (updateProfile E p i).2 })
    | none =>
      (some (newProfile E ipAddr i).1,
        { Items := mapSet w.Items ipAddr (newProfile E ipAddr i).1
          calls := w.calls ++ (newProfile E ipAddr i).2 })

/-- A sequence of calls `getIPProfile(ipAddr, i)` applied one after another. -/
def runCalls (E : Env) (w : World) (cs : List (String × packetInfo)) : World :=
  cs.foldl (fun w c => (getIPProfile E w c.1 c.2).2) w

/-- A sequence of calls for one address applied one after another. -/
def runAddr (E : Env) (w : World) (ipAddr : String) (obs : List packetInfo) : World :=
  obs.foldl (fun w i => (getIPProfile E w ipAddr i).2) w


/-- The profile stored for an address after one more call for it: the hit path
on the profile already stored, the miss path when there is none. -/
def stepProfile (E : Env) (ipAddr : String) (o : Option IPProfile) (i : packetInfo) :
    IPProfile :=
  match o with
  | some p => (updateProfile E p i).1
  | none => (newProfile E ipAddr i).1

/-- The hit path applied to a profile once per observation, in order. -/
def foldProfile (E : Env) (p : IPProfile) (obs : List packetInfo) : IPProfile :=
  obs.foldl (fun p i => (updateProfile E p i).1) p

/-- The resolver calls made while `foldProfile` runs. -/
def foldCalls (E : Env) : IPProfile → List packetInfo → List Call
  | _, [] => []
  | p, i :: t => (updateProfile E p i).2 ++ foldCalls E (updateProfile E p i).1 t

/-- The observations of a call sequence that are addressed to `a`. -/
def obsFor (a : String) (cs : List (String × packetInfo)) : List packetInfo :=
  (cs.filter (fun c => c.1 = a)).map Prod.snd

/-- Whether a resolver call is a `LookupJa3` call. -/
def Call.isJa3 : Call → Bool
  | Call.LookupJa3 _ => true
  | _ => false

/-- Whether an observation has a transport layer whose endpoint `sel` (source or
destination) is the port `q`. -/
def carries (sel : TransportLayer → String) (q : String) (i : packetInfo) : Bool :=
  match i.p.TransportLayer with
  | some tl => sel tl = q
  | none => false

/-- Whether an observation has a transport layer of the given type. -/
def isLayer (lt : LayerType) (i : packetInfo) : Bool :=
  match i.p.TransportLayer with
  | some tl => tl.LayerType = lt
  | none => false

/-- The sum of the data lengths of the observations that carry the port `q`. -/
def portTotal (sel : TransportLayer → String) (q : String) (obs : List packetInfo) : Nat :=
  ((obs.filter (carries sel q)).map (fun i => i.p.DataLen)).sum

/-- The number of observations of the given layer type that carry the port `q`. -/
def portCount (sel : TransportLayer → String) (q : String) (lt : LayerType)
    (obs : List packetInfo) : Nat :=
  ((obs.filter (carries sel q)).filter (isLayer lt)).length

/-- One port map (source or destination, chosen by `sel`) after the hit path has
seen the observations in order. -/
def foldPorts (sel : TransportLayer → String) (ports : List (String × Port))
    (obs : List packetInfo) : List (String × Port) :=
  obs.foldl
    (fun m i =>
      match i.p.TransportLayer with
      | some tl => updatePorts m (sel tl) tl.LayerType (dataLenOf i)
      | none => m)
    ports

/-- The entry of one port after one more observation. -/
def portStep (sel : TransportLayer → String) (q : String) (o : Option Port)
    (i : packetInfo) : Option Port :=
  match i.p.TransportLayer with
  | some tl =>
    if sel tl = q then
      match o with
      | some port => some (addToPort port tl.LayerType (dataLenOf i))
      | none => some (newPort tl.LayerType (dataLenOf i))
    else o
  | none => o

/-- A port map agrees with a sequence of observations: it has an entry for `q`
exactly when some observation carries `q` at the endpoint `sel`, and the
counters of the entry are the sum of the data lengths of those observations,
the number of them that are TCP and the number that are UDP, each reduced
modulo `2 ^ 64`. -/
def PortsAgree (sel : TransportLayer → String) (ports : List (String × Port))
    (obs : List packetInfo) : Prop :=
  (∀ q, (∃ port, mapGet ports q = some port) ↔ ∃ i ∈ obs, carries sel q i = true) ∧
  ∀ q port, mapGet ports q = some port →
    port.NumTotal = portTotal sel q obs % 2 ^ 64 ∧
    port.NumTCP = portCount sel q LayerType.LayerTypeTCP obs % 2 ^ 64 ∧
    port.NumUDP = portCount sel q LayerType.LayerTypeUDP obs % 2 ^ 64

/-- An environment for worked examples. -/
def exampleEnv : Env :=
  { LocalDNS := true
    LookupGeolocation := fun _ => "DE"
    LookupDNSNameLocal := fun _ => "host.local"
    LookupDNSNames := fun _ => []
    LookupJa3 := fun h => "label of " ++ h
    NewProto := fun r => { Packets := 1, detail := r.detail } }

/-- An observation with the given data length and transport layer and nothing
else. -/
def examplePacket (n : Nat) (tl : Option TransportLayer) (ts : Timestamp) : packetInfo :=
  { p :=
      { DataLen := n
        TransportLayer := tl
        GetClientHelloBasic := none
        DigestHexPacket := ""
        DigestHexPacketJa3s := ""
        GetProtocols := [] }
    timestamp := ts }

/-- A TCP transport layer from port 50000 to port 443. -/
def tcp443 : TransportLayer :=
  { LayerType := LayerType.LayerTypeTCP, Src := "50000", Dst := "443" }

/-- A UDP transport layer from port 50000 to port 443. -/
def udp443 : TransportLayer :=
  { LayerType := LayerType.LayerTypeUDP, Src := "50000", Dst := "443" }

/-- The scenario of the spec: lengths 100, 200 and 50 to destination port 443,
over TCP twice and over UDP once. -/
def scenarioPorts : List packetInfo :=
  [examplePacket 100 (some tcp443) 1, examplePacket 200 (some tcp443) 2,
    examplePacket 50 (some udp443) 3]

/-- A TCP observation to port 443 whose data is a slice of 2^30 bytes, one
gibibyte. -/
def gibibytePacket : packetInfo :=
  examplePacket (2 ^ 30) (some tcp443) 1

/-- The fingerprint map after one more hash on the hit path (lines 168-173). -/
def ja3Step (E : Env) (m : List (String × String)) (h : String) : List (String × String) :=
  if h ≠ "" then
    match mapGet m h with
    | some _ => m
    | none => mapSet m h (E.LookupJa3 h)
  else m

/-- The hashes `resolvers.LookupJa3` is called with while the hit path sees the
hashes in order, starting from the fingerprint map `m`. -/
def ja3Lookups (E : Env) : List (String × String) → List String → List String
  | _, [] => []
  | m, h :: t =>
    (if h ≠ "" then
      match mapGet m h with
      | some _ => []
      | none => [h]
    else []) ++ ja3Lookups E (ja3Step E m h) t

/-- The observations of the second scenario of the spec: five updates carrying
two distinct fingerprint hashes. -/
def scenarioJa3 : List packetInfo :=
  [ { examplePacket 60 none 1 with p.DigestHexPacket := "e7d705a3286e19ea42f587b344ee6865" },
    { examplePacket 60 none 2 with p.DigestHexPacketJa3s := "ae4edc6faf64d08308082ad26be60767" },
    { examplePacket 60 none 3 with p.DigestHexPacket := "e7d705a3286e19ea42f587b344ee6865" },
    examplePacket 60 none 4,
    { examplePacket 60 none 5 with p.DigestHexPacketJa3s := "ae4edc6faf64d08308082ad26be60767" } ]

/-! ## getIPProfile under concurrent callers

The store lock and the profile lock delimit the atomic steps of a call: the
lookup (lines 99-101 or 99-192), the merge under the profile lock (lines
103-188), the construction of a new profile (lines 194-278, which touches no
shared state), and the insertion under the store lock (lines 280-282).
Profiles live in a heap and the map holds pointers, as in the source. -/

/-- Where a call of `getIPProfile` stands. -/
inductive Pc where
  | start
  | hit (ptr : Nat)
  | miss
  | built (ptr : Nat)
  | done (ret : Option Nat)
  deriving DecidableEq, Repr

/-- A goroutine executing `getIPProfile(ipAddr, i)`. -/
structure Goroutine where
  ipAddr : String
  i : packetInfo
  pc : Pc
  deriving DecidableEq, Repr

/-- The memory shared by the goroutines: `IPProfiles.Items` as a map to
pointers, the allocated profiles (a pointer is an index), the resolver calls. -/
structure Shared where
  Items : List (String × Nat)
  heap : List IPProfile
  calls : List Call
  deriving DecidableEq, Repr

/-- One atomic step of a goroutine. -/
def Goroutine.step (E : Env) (s : Shared) (g : Goroutine) : Shared × Goroutine :=
  match g.pc with
  | Pc.start =>
    if g.ipAddr = "" then (s, { g with pc := Pc.done none })
    else
      match mapGet s.Items g.ipAddr with
      | some ptr => (s, { g with pc := Pc.hit ptr })
      | none => (s, { g with pc := Pc.miss })
  | Pc.hit ptr =>
    match s.heap.get? ptr with
    | some p =>
      ({ s with
          heap := s.heap.set ptr (updateProfile E p g.i).1
          calls := s.calls ++ (updateProfile E p g.i).2 },
        { g with pc := Pc.done (some ptr) })
    | none => (s, g)
  | Pc.miss =>
    ({ s with
        heap := s.heap ++ [(newProfile E g.ipAddr g.i).1]
        calls := s.calls ++ (newProfile E g.ipAddr g.i).2 },
      { g with pc := Pc.built s.heap.length })
  | Pc.built ptr =>
    ({ s with Items := mapSet s.Items g.ipAddr ptr }, { g with pc := Pc.done (some ptr) })
  | Pc.done _ => (s, g)

/-- Two goroutines and the memory they share. -/
structure Conc where
  shared : Shared
  g₁ : Goroutine
  g₂ : Goroutine
  deriving DecidableEq, Repr

/-- A schedule names, step by step, the goroutine that runs next (`false` for
the first, `true` for the second). -/
def runSchedule (E : Env) (c : Conc) : List Bool → Conc
  | [] => c
  | false :: t =>
    runSchedule E { c with shared := (c.g₁.step E c.shared).1, g₁ := (c.g₁.step E c.shared).2 } t
  | true :: t =>
    runSchedule E { c with shared := (c.g₂.step E c.shared).1, g₂ := (c.g₂.step E c.shared).2 } t

/-- Two concurrent calls for the same address on an empty store. -/
def twoCalls (ipAddr : String) (i₁ i₂ : packetInfo) : Conc :=
  { shared := { Items := [], heap := [], calls := [] }
    g₁ := { ipAddr := ipAddr, i := i₁, pc := Pc.start }
    g₂ := { ipAddr := ipAddr, i := i₂, pc := Pc.start } }

/-- The profile the store holds for an address, through the pointer. -/
def Shared.profile (s : Shared) (ipAddr : String) : Option IPProfile :=
  match mapGet s.Items ipAddr with
  | some ptr => s.heap.get? ptr
  | none => none

/-! ## io/chanWriter.go -/

/-- A Go byte slice. -/
abbrev ByteSlice := List Nat

/-- How a call ends: it returns, it panics, it exits through `log.Fatal`, or
the goroutine is left waiting on a channel. -/
inductive Result (α : Type) where
  | ok (a : α)
  | panic (msg : String)
  | fatal (msg : String)
  | blocked
  deriving DecidableEq, Repr

/-- A channel `chan []byte`: its capacity, the queued elements (oldest first)
and whether it has been closed. -/
structure Chan where
  cap : Nat
  buf : List ByteSlice
  closed : Bool
  deriving DecidableEq, Repr

/-- Modelled from the spec: `WriterConfig` is declared outside the sources; the
fields are those `NewChanWriter` reads. -/
structure WriterConfig where
  Buffer : Bool
  Compress : Bool
  MemBufferSize : Int
  ChanSize : Int
  CompressionLevel : Int
  CompressionBlockSize : Int
  deriving DecidableEq, Repr

/-- What `NewChanWriter` takes from outside the file: the constant
`defaults.BufferSize`, the largest capacity that passes the range check of
`make(chan []byte, n)`, whether the runtime finds the memory for the buffer of
a channel of a given capacity, whether `pgzip.NewWriterLevel` accepts a level,
whether `SetConcurrency` accepts a block size and a block count, and
`runtime.GOMAXPROCS(0)`. -/
structure Runtime where
  BufferSize : Int
  maxChanCap : Nat
  canAllocate : Nat → Bool
  levelOK : Int → Bool
  concurrencyOK : Int → Int → Bool
  GOMAXPROCS : Int

/-- The memory `NewChanWriter` and `Write` act on: the `WriterConfig` behind the
pointer `wc`, and the channels made so far (a channel is named by its index). -/
structure IOState where
  wc : WriterConfig
  chans : List Chan
  deriving DecidableEq, Repr

/-- The type `ChanProtoWriter`: a reference to its channel. -/
structure ChanProtoWriter where
  ch : Nat
  deriving DecidableEq, Repr

/-- The `io.Writer` a writer of the chain writes into. -/
inductive WriterTarget where
  | file
  | gWriter
  | bWriter
  | cWriter (w : ChanProtoWriter)
  deriving DecidableEq, Repr

/-- A `bufio.Writer` made by `bufio.NewWriterSize`. -/
structure BufioWriter where
  target : WriterTarget
  size : Int
  deriving DecidableEq, Repr

/-- A `pgzip.Writer` made by `pgzip.NewWriterLevel(w.file, level)`. -/
structure PgzipWriter where
  level : Int
  concurrency : Option (Int × Int)
  deriving DecidableEq, Repr

/-- The type `ChanWriter`; a nil field is `none`. The field `wc` is the pointer
to the configuration in the `IOState`, `file` is never assigned. -/
structure ChanWriter where
  bWriter : Option BufioWriter
  gWriter : Option PgzipWriter
  dWriter : Option WriterTarget
  cWriter : Option ChanProtoWriter
  deriving DecidableEq, Repr

/-- The function `NewChanProtoWriter`: `make(chan []byte, size)` panics when the
size fails the range check (negative, or a buffer beyond the largest
allocation), the process exits with the fatal error `out of memory` when the
runtime does not find the memory for the buffer, and the channel is made
otherwise. -/
def NewChanProtoWriter (R : Runtime) (s : IOState) (size : Int) :
    Result ChanProtoWriter × IOState :=
  if size < 0 ∨ (R.maxChanCap : Int) < size then
    (Result.panic "makechan: size out of range", s)
  else if R.canAllocate size.toNat then
    (Result.ok { ch := s.chans.length },
      { s with chans := s.chans ++ [{ cap := size.toNat, buf := [], closed := false }] })
  else (Result.fatal "runtime: out of memory", s)

/-- The writer chain chosen at lines 58-88, given the writer `w` so far. -/
def chooseChain (wc : WriterConfig) (R : Runtime) (w : ChanWriter) : Result ChanWriter :=
  if wc.Buffer then
    if wc.Compress then
      if R.levelOK wc.CompressionLevel then
        Result.ok { w with
          gWriter := some { level := wc.CompressionLevel, concurrency := none }
          bWriter := some { target := WriterTarget.gWriter, size := wc.MemBufferSize }
          dWriter := some WriterTarget.bWriter }
      else Result.panic "gzip: invalid compression level"
    else
      Result.ok { w with
        bWriter := some { target := WriterTarget.file, size := wc.MemBufferSize }
        dWriter := some WriterTarget.bWriter }
  else
    if wc.Compress then
      if R.levelOK wc.CompressionLevel then
        Result.ok { w with
          gWriter := some { level := wc.CompressionLevel, concurrency := none }
          dWriter := some WriterTarget.gWriter }
      else Result.panic "gzip: invalid compression level"
    else
      match w.cWriter with
      | some cw => Result.ok { w with dWriter := some (WriterTarget.cWriter cw) }
      | none => Result.panic "nil pointer dereference"

/-- The configuration of the compressor at lines 90-97. -/
def setConcurrency (wc : WriterConfig) (R : Runtime) (w : ChanWriter) : Result ChanWriter :=
  match w.gWriter with
  | some g =>
    if R.concurrencyOK wc.CompressionBlockSize (R.GOMAXPROCS * 2) then
      Result.ok { w with
        gWriter := some { g with
          concurrency := some (wc.CompressionBlockSize, R.GOMAXPROCS * 2) } }
    else Result.fatal "failed to configure compression package: "
  | none => Result.ok w

/-- The function `NewChanWriter`, on the configuration held in the state. -/
def NewChanWriter (R : Runtime) (s : IOState) : Result ChanWriter × IOState :=
  let w : ChanWriter := { bWriter := none, gWriter := none, dWriter := none, cWriter := none }
  let s : IOState :=
    if s.wc.MemBufferSize ≤ 0 then { s with wc := { s.wc with MemBufferSize := R.BufferSize } }
    else s
  if s.wc.Buffer ∨ s.wc.Compress then
    (Result.panic
      "buffering or compression cannot be activated when running using writeChan", s)
  else
    match NewChanProtoWriter R s s.wc.ChanSize with
    | (Result.ok cw, s) =>
      match chooseChain s.wc R { w with cWriter := some cw } with
      | Result.ok w => (setConcurrency s.wc R w, s)
      | r => (r, s)
    | (Result.panic msg, s) => (Result.panic msg, s)
    | (Result.fatal msg, s) => (Result.fatal msg, s)
    | (Result.blocked, s) => (Result.blocked, s)

/-- The send `ch <- p` on the channel named `ch`. -/
def chanSend (s : IOState) (ch : Nat) (p : ByteSlice) : Result Unit × IOState :=
  match s.chans.get? ch with
  | some c =>
    if c.closed then (Result.panic "send on closed channel", s)
    else if c.buf.length < c.cap then
      (Result.ok (), { s with chans := s.chans.set ch { c with buf := c.buf ++ [p] } })
    else (Result.blocked, s)
  | none => (Result.blocked, s)

/-- The method `ChanProtoWriter.Write`: the slice is sent as it is and its length
returned. -/
def ChanProtoWriter.Write (s : IOState) (w : ChanProtoWriter) (p : ByteSlice) :
    Result (Nat × Option String) × IOState :=
  match chanSend s w.ch p with
  | (Result.ok (), s) => (Result.ok (p.length, none), s)
  | (Result.panic msg, s) => (Result.panic msg, s)
  | (Result.fatal msg, s) => (Result.fatal msg, s)
  | (Result.blocked, s) => (Result.blocked, s)

/-- The method `ChanWriter.Write`, with `proto.Marshal` as the function `Marshal`;
the value returned is the error, `none` for nil. -/
def ChanWriter.Write {Msg : Type} (Marshal : Msg → Except String ByteSlice) (s : IOState)
    (w : ChanWriter) (msg : Msg) : Result (Option String) × IOState :=
  match Marshal msg with
  | Except.error err => (Result.ok (some err), s)
  | Except.ok data =>
    match w.cWriter with
    | none => (Result.panic "nil pointer dereference", s)
    | some cw =>
      match cw.Write s data with
      | (Result.ok (_, err), s) => (Result.ok err, s)
      | (Result.panic msg, s) => (Result.panic msg, s)
      | (Result.fatal msg, s) => (Result.fatal msg, s)
      | (Result.blocked, s) => (Result.blocked, s)

/-- The base-128 varint of a length, least significant group first; `fuel`
bounds the number of groups. -/
def uvarintAux : Nat → Nat → List Nat
  | 0, n => [n % 128]
  | fuel + 1, n => if n < 128 then [n] else (n % 128 + 128) :: uvarintAux fuel (n / 128)

/-- Modelled from the spec: the package `delimited` is not among the sources. The
frame of a record is the length prefix followed by the serialized bytes, as one
byte slice; the prefix is the varint of the length (at most ten groups for a
64-bit length). -/
def delimitedFrame (data : ByteSlice) : ByteSlice :=
  uvarintAux 9 data.length ++ data

/-- A runtime for worked examples: the default buffer size of netcap, the
channel capacity bound of a 64-bit Go runtime for 24-byte elements, memory for
channels of up to 2^20 elements, the compression levels and block settings
`pgzip` accepts, eight processors. -/
def exampleRuntime : Runtime :=
  { BufferSize := 10485760
    maxChanCap := 11728124029606
    canAllocate := fun n => decide (n ≤ 2 ^ 20)
    levelOK := fun l => decide (-2 ≤ l ∧ l ≤ 9)
    concurrencyOK := fun size blocks => decide (16384 < size ∧ 0 < blocks)
    GOMAXPROCS := 8 }

/-- A configuration for the channel writer with the given flags and capacity. -/
def exampleConfig (buffer compress : Bool) (chanSize : Int) : WriterConfig :=
  { Buffer := buffer
    Compress := compress
    MemBufferSize := 0
    ChanSize := chanSize
    CompressionLevel := 1
    CompressionBlockSize := 1048576 }

/-- The state before the first writer is made from the given configuration. -/
def exampleState (wc : WriterConfig) : IOState :=
  { wc := wc, chans := [] }

/-- The state an `ok` result of `NewChanWriter` leaves, paired with the writer. -/
def writerOf (r : Result ChanWriter × IOState) : Option (ChanWriter × IOState) :=
  match r with
  | (Result.ok w, s) => some (w, s)
  | _ => none

/-- Messages that are their own serialization: `proto.Marshal` never fails. -/
def marshalBytes (msg : ByteSlice) : Except String ByteSlice :=
  Except.ok msg
/-! ## Lemmas on maps -/

theorem mapGet_mapSet_self {V : Type} (m : List (String × V)) (k : String) (v : V) :
    mapGet (mapSet m k v) k = some v := by
  induction m with
  | nil => simp [mapSet, mapGet]
  | cons h t ih =>
    obtain ⟨k', v'⟩ := h
    by_cases hk : k' = k
    · simp [mapSet, mapGet, hk]
    · simp [mapSet, mapGet, hk, ih]

theorem mapGet_mapSet_ne {V : Type} (m : List (String × V)) (k k₂ : String) (v : V)
    (h : k₂ ≠ k) : mapGet (mapSet m k v) k₂ = mapGet m k₂ := by
  induction m with
  | nil => simp [mapSet, mapGet, Ne.symm h]
  | cons e t ih =>
    obtain ⟨k', v'⟩ := e
    by_cases hk : k' = k
    · subst hk
      simp [mapSet, mapGet, Ne.symm h]
    · by_cases hk2 : k' = k₂
      · subst hk2
        simp [mapSet, mapGet, hk]
      · simp [mapSet, mapGet, hk, hk2, ih]

theorem mem_mapKeys_iff {V : Type} (m : List (String × V)) (k : String) :
    k ∈ mapKeys m ↔ ∃ v, mapGet m k = some v := by
  induction m with
  | nil => simp [mapKeys, mapGet]
  | cons e t ih =>
    obtain ⟨k', v'⟩ := e
    by_cases hk : k' = k
    · simp [mapKeys, mapGet, hk]
    · have ih2 : k ∈ List.map Prod.fst t ↔ ∃ v, mapGet t k = some v := ih
      simp [mapKeys, mapGet, hk, ih2, Ne.symm hk]

theorem not_mem_mapKeys_iff {V : Type} (m : List (String × V)) (k : String) :
    k ∉ mapKeys m ↔ mapGet m k = none := by
  rw [mem_mapKeys_iff]
  cases mapGet m k <;> simp

theorem mapKeys_mapSet_of_mem {V : Type} (m : List (String × V)) (k : String) (v : V)
    (h : k ∈ mapKeys m) : mapKeys (mapSet m k v) = mapKeys m := by
  induction m with
  | nil => simp [mapKeys] at h
  | cons e t ih =>
    obtain ⟨k', v'⟩ := e
    by_cases hk : k' = k
    · simp [mapSet, mapKeys, hk]
    · have ht : k ∈ mapKeys t := by
        simpa [mapKeys, Ne.symm hk] using h
      have := ih ht
      simp only [mapKeys] at this
      simp [mapSet, mapKeys, hk, this]

theorem mapKeys_mapSet_of_not_mem {V : Type} (m : List (String × V)) (k : String) (v : V)
    (h : k ∉ mapKeys m) : mapKeys (mapSet m k v) = mapKeys m ++ [k] := by
  induction m with
  | nil => simp [mapSet, mapKeys]
  | cons e t ih =>
    obtain ⟨k', v'⟩ := e
    have hk : k' ≠ k := by
      intro hk
      apply h
      simp [mapKeys, hk]
    have ht : k ∉ mapKeys t := by
      intro ht
      apply h
      simp only [mapKeys] at ht
      simp [mapKeys, ht]
    have := ih ht
    simp only [mapKeys] at this
    simp [mapSet, mapKeys, hk, this]

theorem nodup_mapKeys_mapSet {V : Type} (m : List (String × V)) (k : String) (v : V)
    (h : (mapKeys m).Nodup) : (mapKeys (mapSet m k v)).Nodup := by
  by_cases hk : k ∈ mapKeys m
  · rw [mapKeys_mapSet_of_mem m k v hk]
    exact h
  · rw [mapKeys_mapSet_of_not_mem m k v hk]
    exact List.Nodup.append h (List.nodup_singleton k) (by simpa using hk)

theorem mem_mapKeys_mapSet {V : Type} (m : List (String × V)) (k k₂ : String) (v : V) :
    k₂ ∈ mapKeys (mapSet m k v) ↔ k₂ = k ∨ k₂ ∈ mapKeys m := by
  by_cases hk : k ∈ mapKeys m
  · rw [mapKeys_mapSet_of_mem m k v hk]
    constructor
    · intro h
      exact Or.inr h
    · rintro (h | h)
      · exact h ▸ hk
      · exact h
  · rw [mapKeys_mapSet_of_not_mem m k v hk]
    simp [or_comm]


/-! ## One call of getIPProfile -/

theorem getIPProfile_empty (E : Env) (w : World) (i : packetInfo) :
    getIPProfile E w "" i = (none, w) := by
  simp [getIPProfile]

theorem getIPProfile_items (E : Env) (w : World) (a : String) (i : packetInfo)
    (ha : a ≠ "") :
    (getIPProfile E w a i).2.Items = mapSet w.Items a (stepProfile E a (mapGet w.Items a) i) := by
  unfold getIPProfile
  cases h : mapGet w.Items a <;> simp [ha, stepProfile]

theorem getIPProfile_calls (E : Env) (w : World) (a : String) (i : packetInfo)
    (ha : a ≠ "") :
    (getIPProfile E w a i).2.calls =
      w.calls ++
        (match mapGet w.Items a with
          | some p => (updateProfile E p i).2
          | none => (newProfile E a i).2) := by
  unfold getIPProfile
  cases h : mapGet w.Items a <;> simp [ha]

theorem mapGet_getIPProfile_self (E : Env) (w : World) (a : String) (i : packetInfo)
    (ha : a ≠ "") :
    mapGet (getIPProfile E w a i).2.Items a = some (stepProfile E a (mapGet w.Items a) i) := by
  rw [getIPProfile_items E w a i ha, mapGet_mapSet_self]

theorem mapGet_getIPProfile_ne (E : Env) (w : World) (a k : String) (i : packetInfo)
    (hk : k ≠ a) :
    mapGet (getIPProfile E w a i).2.Items k = mapGet w.Items k := by
  by_cases ha : a = ""
  · subst ha
    rw [getIPProfile_empty]
  · rw [getIPProfile_items E w a i ha, mapGet_mapSet_ne _ _ _ _ hk]

theorem mem_mapKeys_getIPProfile (E : Env) (w : World) (a k : String) (i : packetInfo) :
    k ∈ mapKeys (getIPProfile E w a i).2.Items ↔ (a ≠ "" ∧ k = a) ∨ k ∈ mapKeys w.Items := by
  by_cases ha : a = ""
  · subst ha
    rw [getIPProfile_empty]
    simp
  · rw [getIPProfile_items E w a i ha, mem_mapKeys_mapSet]
    simp [ha]

theorem nodup_mapKeys_getIPProfile (E : Env) (w : World) (a : String) (i : packetInfo)
    (h : (mapKeys w.Items).Nodup) : (mapKeys (getIPProfile E w a i).2.Items).Nodup := by
  by_cases ha : a = ""
  · subst ha
    rw [getIPProfile_empty]
    exact h
  · rw [getIPProfile_items E w a i ha]
    exact nodup_mapKeys_mapSet _ _ _ h

/-! ## Sequences of calls -/

theorem runCalls_cons (E : Env) (w : World) (c : String × packetInfo)
    (cs : List (String × packetInfo)) :
    runCalls E w (c :: cs) = runCalls E (getIPProfile E w c.1 c.2).2 cs := by
  simp [runCalls]

theorem obsFor_cons (a : String) (c : String × packetInfo) (cs : List (String × packetInfo)) :
    obsFor a (c :: cs) = if c.1 = a then c.2 :: obsFor a cs else obsFor a cs := by
  by_cases h : c.1 = a <;> simp [obsFor, List.filter_cons, h]

theorem mapGet_runCalls (E : Env) (cs : List (String × packetInfo)) (w : World) (a : String)
    (ha : a ≠ "") :
    mapGet (runCalls E w cs).Items a =
      (obsFor a cs).foldl (fun o i => some (stepProfile E a o i)) (mapGet w.Items a) := by
  induction cs generalizing w with
  | nil => simp [runCalls, obsFor]
  | cons c t ih =>
    rw [runCalls_cons, ih, obsFor_cons]
    by_cases h : c.1 = a
    · rw [if_pos h, List.foldl_cons, h, mapGet_getIPProfile_self E w a c.2 ha]
    · rw [if_neg h, mapGet_getIPProfile_ne E w c.1 a c.2 (Ne.symm h)]

theorem mapGet_runCalls_empty (E : Env) (cs : List (String × packetInfo)) (w : World) :
    mapGet (runCalls E w cs).Items "" = mapGet w.Items "" := by
  induction cs generalizing w with
  | nil => simp [runCalls]
  | cons c t ih =>
    rw [runCalls_cons, ih]
    by_cases h : c.1 = ""
    · rw [h, getIPProfile_empty]
    · rw [mapGet_getIPProfile_ne E w c.1 "" c.2 (Ne.symm h)]

theorem mem_mapKeys_runCalls (E : Env) (cs : List (String × packetInfo)) (w : World)
    (k : String) :
    k ∈ mapKeys (runCalls E w cs).Items ↔
      k ∈ mapKeys w.Items ∨ (k ≠ "" ∧ k ∈ cs.map Prod.fst) := by
  induction cs generalizing w with
  | nil => simp [runCalls]
  | cons c t ih =>
    rw [runCalls_cons, ih, mem_mapKeys_getIPProfile]
    constructor
    · rintro ((⟨h1, h2⟩ | h) | ⟨h1, h2⟩)
      · right
        subst h2
        exact ⟨h1, by simp⟩
      · exact Or.inl h
      · right
        exact ⟨h1, by simp [h2]⟩
    · rintro (h | ⟨h1, h2⟩)
      · exact Or.inl (Or.inr h)
      · rw [List.map_cons, List.mem_cons] at h2
        rcases h2 with h2 | h2
        · left
          left
          exact ⟨h2 ▸ h1, h2⟩
        · exact Or.inr ⟨h1, h2⟩

theorem nodup_mapKeys_runCalls (E : Env) (cs : List (String × packetInfo)) (w : World)
    (h : (mapKeys w.Items).Nodup) : (mapKeys (runCalls E w cs).Items).Nodup := by
  induction cs generalizing w with
  | nil => simpa [runCalls] using h
  | cons c t ih =>
    rw [runCalls_cons]
    exact ih _ (nodup_mapKeys_getIPProfile E w c.1 c.2 h)

/-! ## The profile of one address -/

theorem foldl_stepProfile_some (E : Env) (a : String) (obs : List packetInfo) (p : IPProfile) :
    obs.foldl (fun o i => some (stepProfile E a o i)) (some p) = some (foldProfile E p obs) := by
  induction obs generalizing p with
  | nil => simp [foldProfile]
  | cons i t ih =>
    rw [List.foldl_cons]
    have h : stepProfile E a (some p) i = (updateProfile E p i).1 := rfl
    rw [h, ih]
    simp [foldProfile]

theorem foldl_stepProfile_none (E : Env) (a : String) (i : packetInfo) (obs : List packetInfo) :
    (i :: obs).foldl (fun o i => some (stepProfile E a o i)) none =
      some (foldProfile E (newProfile E a i).1 obs) := by
  rw [List.foldl_cons]
  have h : stepProfile E a none i = (newProfile E a i).1 := rfl
  rw [h, foldl_stepProfile_some]

theorem foldProfile_cons (E : Env) (p : IPProfile) (i : packetInfo) (obs : List packetInfo) :
    foldProfile E p (i :: obs) = foldProfile E (updateProfile E p i).1 obs := by
  simp [foldProfile]

theorem foldProfile_append (E : Env) (p : IPProfile) (obs : List packetInfo) (i : packetInfo) :
    foldProfile E p (obs ++ [i]) = (updateProfile E (foldProfile E p obs) i).1 := by
  simp [foldProfile]

theorem foldProfile_Addr (E : Env) (obs : List packetInfo) (p : IPProfile) :
    (foldProfile E p obs).Addr = p.Addr := by
  induction obs generalizing p with
  | nil => rfl
  | cons i t ih =>
    rw [foldProfile_cons, ih]
    rfl

theorem wrapInt64_incInt64 (x n : Int) (h : x = wrapInt64 n) :
    incInt64 x = wrapInt64 (n + 1) := by
  subst h
  unfold incInt64 wrapInt64
  omega

theorem wrapInt64_of_lt (n : Nat) (h : n < 2 ^ 63) : wrapInt64 (n : Int) = n := by
  unfold wrapInt64
  omega

/-- The packet counter wraps: after the hit path has seen the observations, it
is the `int64` that the count so far plus their number wraps to. -/
theorem foldProfile_NumPackets (E : Env) (obs : List packetInfo) (p : IPProfile) (n : Int)
    (hp : p.NumPackets = wrapInt64 n) :
    (foldProfile E p obs).NumPackets = wrapInt64 (n + obs.length) := by
  induction obs generalizing p n with
  | nil => simpa using hp
  | cons i t ih =>
    have h1 : (updateProfile E p i).1.NumPackets = wrapInt64 (n + 1) :=
      wrapInt64_incInt64 _ _ hp
    rw [foldProfile_cons, ih _ _ h1, List.length_cons]
    congr 1
    push_cast
    omega

/-- The packet counter of every stored profile after a sequence of calls on the
empty store: the `int64` that the number of calls for its address wraps to. -/
theorem runCalls_NumPackets (E : Env) (cs : List (String × packetInfo)) (a : String)
    (p : IPProfile) (hp : mapGet (runCalls E World.init cs).Items a = some p) :
    p.Addr = a ∧ p.NumPackets = wrapInt64 ((cs.filter (fun c => c.1 = a)).length : Nat) := by
  by_cases ha : a = ""
  · subst ha
    rw [mapGet_runCalls_empty] at hp
    simp [World.init, mapGet] at hp
  · rw [mapGet_runCalls E cs World.init a ha] at hp
    have hlen : (cs.filter (fun c => c.1 = a)).length = (obsFor a cs).length := by
      simp [obsFor]
    rw [hlen]
    cases hobs : obsFor a cs with
    | nil =>
      rw [hobs] at hp
      simp [World.init, mapGet] at hp
    | cons i t =>
      rw [hobs] at hp
      have h0 : mapGet World.init.Items a = none := by simp [World.init, mapGet]
      rw [h0, foldl_stepProfile_none] at hp
      injection hp with hp
      subst hp
      have h1 : (newProfile E a i).1.NumPackets = wrapInt64 1 := by
        simp only [newProfile]
        decide
      rw [foldProfile_Addr, foldProfile_NumPackets E t _ 1 h1]
      refine ⟨rfl, ?_⟩
      congr 1
      simp only [List.length_cons]
      push_cast
      omega

/-- C1. Calls of getIPProfile applied one after another to the empty store leave
one profile per distinct non-empty address of the sequence and nothing else: a
call with the empty address returns nil and changes nothing, the keys of the
store are pairwise distinct and are exactly the non-empty addresses that
occur, their number is the number of distinct non-empty addresses, and the
profile found under a key has that key as its Addr and the number of calls
made for that address as its NumPackets. NumPackets is a 64-bit counter: the
number of calls is its value as long as it is below 2^63, which every sequence
a run can make is, and the value wrapped into the signed 64-bit range in
general. -/
theorem getIPProfile_sequence_store (E : Env) (cs : List (String × packetInfo)) :
    (∀ (w : World) (i : packetInfo), getIPProfile E w "" i = (none, w)) ∧
    (mapKeys (runCalls E World.init cs).Items).Nodup ∧
    (∀ a, a ∈ mapKeys (runCalls E World.init cs).Items ↔ a ≠ "" ∧ a ∈ cs.map Prod.fst) ∧
    (runCalls E World.init cs).Items.length =
      ((cs.map Prod.fst).filter (fun a => a ≠ "")).dedup.length ∧
    (∀ a p, mapGet (runCalls E World.init cs).Items a = some p →
      p.Addr = a ∧
      p.NumPackets = wrapInt64 ((cs.filter (fun c => c.1 = a)).length : Nat) ∧
      ((cs.filter (fun c => c.1 = a)).length < 2 ^ 63 →
        p.NumPackets = ((cs.filter (fun c => c.1 = a)).length : Nat))) := by
  have hnodup : (mapKeys (runCalls E World.init cs).Items).Nodup :=
    nodup_mapKeys_runCalls E cs World.init (by simp [World.init, mapKeys])
  have hmem : ∀ a, a ∈ mapKeys (runCalls E World.init cs).Items ↔
      a ≠ "" ∧ a ∈ cs.map Prod.fst := by
    intro a
    rw [mem_mapKeys_runCalls]
    simp [World.init, mapKeys]
  refine ⟨getIPProfile_empty E, hnodup, hmem, ?_, ?_⟩
  · have hperm : (mapKeys (runCalls E World.init cs).Items).Perm
        ((cs.map Prod.fst).filter (fun a => a ≠ "")).dedup := by
      rw [List.perm_ext_iff_of_nodup hnodup (List.nodup_dedup _)]
      intro a
      rw [hmem a, List.mem_dedup, List.mem_filter]
      simp [and_comm]
    have := hperm.length_eq
    simpa [mapKeys] using this
  · intro a p hp
    obtain ⟨h1, h2⟩ := runCalls_NumPackets E cs a p hp
    refine ⟨h1, h2, ?_⟩
    intro hlt
    rw [h2, wrapInt64_of_lt _ hlt]

/-- Witness for C1: three calls, two for 10.0.0.5 and one for 10.0.0.9, and one
call with the empty address; the profile of 10.0.0.5 counts two packets. -/
theorem getIPProfile_sequence_store_example :
    ∀ p, mapGet (runCalls exampleEnv World.init
        [("10.0.0.5", examplePacket 100 (some tcp443) 1),
          ("", examplePacket 70 none 2),
          ("10.0.0.9", examplePacket 80 (some udp443) 3),
          ("10.0.0.5", examplePacket 200 (some tcp443) 4)]).Items "10.0.0.5" = some p →
      p.Addr = "10.0.0.5" ∧ p.NumPackets = 2 := by
  intro p hp
  obtain ⟨h1, _, h3⟩ :=
    (getIPProfile_sequence_store exampleEnv
      [("10.0.0.5", examplePacket 100 (some tcp443) 1),
        ("", examplePacket 70 none 2),
        ("10.0.0.9", examplePacket 80 (some udp443) 3),
        ("10.0.0.5", examplePacket 200 (some tcp443) 4)]).2.2.2.2 "10.0.0.5" p hp
  exact ⟨h1, h3 (by decide)⟩

theorem runAddr_cons (E : Env) (w : World) (a : String) (i : packetInfo)
    (obs : List packetInfo) :
    runAddr E w a (i :: obs) = runAddr E (getIPProfile E w a i).2 a obs := by
  simp [runAddr]

theorem runAddr_hit (E : Env) (a : String) (ha : a ≠ "") (obs : List packetInfo) (w : World)
    (p : IPProfile) (hp : mapGet w.Items a = some p) :
    mapGet (runAddr E w a obs).Items a = some (foldProfile E p obs) ∧
      (runAddr E w a obs).calls = w.calls ++ foldCalls E p obs := by
  induction obs generalizing w p with
  | nil => simp [runAddr, foldProfile, foldCalls, hp]
  | cons i t ih =>
    have h1 : mapGet (getIPProfile E w a i).2.Items a = some (updateProfile E p i).1 := by
      rw [mapGet_getIPProfile_self E w a i ha, hp]
      rfl
    have h2 : (getIPProfile E w a i).2.calls = w.calls ++ (updateProfile E p i).2 := by
      rw [getIPProfile_calls E w a i ha, hp]
    rw [runAddr_cons, foldProfile_cons]
    obtain ⟨h3, h4⟩ := ih _ _ h1
    refine ⟨h3, ?_⟩
    rw [h4, h2]
    simp [foldCalls]

theorem runAddr_miss (E : Env) (a : String) (ha : a ≠ "") (i : packetInfo)
    (obs : List packetInfo) (w : World) (hw : mapGet w.Items a = none) :
    mapGet (runAddr E w a (i :: obs)).Items a = some (foldProfile E (newProfile E a i).1 obs) ∧
      (runAddr E w a (i :: obs)).calls =
        w.calls ++ (newProfile E a i).2 ++ foldCalls E (newProfile E a i).1 obs := by
  have h1 : mapGet (getIPProfile E w a i).2.Items a = some (newProfile E a i).1 := by
    rw [mapGet_getIPProfile_self E w a i ha, hw]
    rfl
  have h2 : (getIPProfile E w a i).2.calls = w.calls ++ (newProfile E a i).2 := by
    rw [getIPProfile_calls E w a i ha, hw]
  rw [runAddr_cons]
  obtain ⟨h3, h4⟩ := runAddr_hit E a ha obs _ _ h1
  exact ⟨h3, by rw [h4, h2]⟩

/-! ## Bytes -/

theorem foldProfile_Bytes (E : Env) (obs : List packetInfo) (p : IPProfile)
    (hp : p.Bytes < 2 ^ 64) :
    (foldProfile E p obs).Bytes = (p.Bytes + (obs.map (fun i => i.p.DataLen)).sum) % 2 ^ 64 := by
  induction obs generalizing p with
  | nil =>
    simp only [foldProfile, List.foldl_nil, List.map_nil, List.sum_nil, Nat.add_zero]
    exact (Nat.mod_eq_of_lt hp).symm
  | cons i t ih =>
    have hb : (updateProfile E p i).1.Bytes = (p.Bytes + i.p.DataLen % 2 ^ 64) % 2 ^ 64 := rfl
    have hlt : (updateProfile E p i).1.Bytes < 2 ^ 64 := by
      rw [hb]
      exact Nat.mod_lt _ (by norm_num)
    rw [foldProfile_cons, ih _ hlt, hb, List.map_cons, List.sum_cons]
    omega

/-- C3. After a non-empty sequence of getIPProfile calls for one address that
the store did not hold before, the Bytes of the profile is the sum of the data
lengths of all the calls, the creating one included, reduced modulo 2^64 (the
sum in unsigned 64-bit arithmetic); every permutation of the sequence ends
with the same Bytes. -/
theorem getIPProfile_Bytes_sum (E : Env) (w : World) (a : String) (obs : List packetInfo)
    (ha : a ≠ "") (hw : mapGet w.Items a = none) (hobs : obs ≠ []) :
    (∃ p, mapGet (runAddr E w a obs).Items a = some p ∧
      p.Bytes = (obs.map (fun i => i.p.DataLen)).sum % 2 ^ 64) ∧
    (∀ obs₂ : List packetInfo, obs₂.Perm obs →
      ∃ p p₂, mapGet (runAddr E w a obs).Items a = some p ∧
        mapGet (runAddr E w a obs₂).Items a = some p₂ ∧ p₂.Bytes = p.Bytes) := by
  have key : ∀ l : List packetInfo, l ≠ [] →
      ∃ p, mapGet (runAddr E w a l).Items a = some p ∧
        p.Bytes = (l.map (fun i => i.p.DataLen)).sum % 2 ^ 64 := by
    intro l hl
    cases l with
    | nil => exact absurd rfl hl
    | cons i t =>
      refine ⟨_, (runAddr_miss E a ha i t w hw).1, ?_⟩
      have h0 : (newProfile E a i).1.Bytes = i.p.DataLen % 2 ^ 64 := rfl
      have hlt : (newProfile E a i).1.Bytes < 2 ^ 64 := by
        rw [h0]
        exact Nat.mod_lt _ (by norm_num)
      rw [foldProfile_Bytes E t _ hlt, h0, List.map_cons, List.sum_cons]
      omega
  refine ⟨key obs hobs, ?_⟩
  intro obs₂ hperm
  have hne : obs₂ ≠ [] := by
    intro h
    subst h
    exact hobs (List.Perm.nil_eq hperm).symm
  obtain ⟨p, hp, hb⟩ := key obs hobs
  obtain ⟨p₂, hp₂, hb₂⟩ := key obs₂ hne
  refine ⟨p, p₂, hp, hp₂, ?_⟩
  rw [hb, hb₂, (hperm.map (fun i => i.p.DataLen)).sum_eq]

/-! ## Ports -/

theorem foldProfile_DstPorts (E : Env) (obs : List packetInfo) (p : IPProfile) :
    (foldProfile E p obs).DstPorts = foldPorts TransportLayer.Dst p.DstPorts obs := by
  induction obs generalizing p with
  | nil => rfl
  | cons i t ih =>
    rw [foldProfile_cons, ih]
    simp only [foldPorts, List.foldl_cons]
    congr 1

theorem foldProfile_SrcPorts (E : Env) (obs : List packetInfo) (p : IPProfile) :
    (foldProfile E p obs).SrcPorts = foldPorts TransportLayer.Src p.SrcPorts obs := by
  induction obs generalizing p with
  | nil => rfl
  | cons i t ih =>
    rw [foldProfile_cons, ih]
    simp only [foldPorts, List.foldl_cons]
    congr 1

theorem newProfile_DstPorts (E : Env) (a : String) (i : packetInfo) :
    (newProfile E a i).1.DstPorts = foldPorts TransportLayer.Dst [] [i] := by
  simp only [newProfile, foldPorts, List.foldl_cons, List.foldl_nil]
  cases i.p.TransportLayer <;> simp [updatePorts, mapGet]

theorem newProfile_SrcPorts (E : Env) (a : String) (i : packetInfo) :
    (newProfile E a i).1.SrcPorts = foldPorts TransportLayer.Src [] [i] := by
  simp only [newProfile, foldPorts, List.foldl_cons, List.foldl_nil]
  cases i.p.TransportLayer <;> simp [updatePorts, mapGet]

theorem foldPorts_append (sel : TransportLayer → String) (m : List (String × Port))
    (l₁ l₂ : List packetInfo) :
    foldPorts sel m (l₁ ++ l₂) = foldPorts sel (foldPorts sel m l₁) l₂ := by
  simp [foldPorts]

theorem mapGet_updatePorts (m : List (String × Port)) (k q : String) (lt : LayerType)
    (d : Nat) :
    mapGet (updatePorts m k lt d) q =
      if k = q then
        match mapGet m q with
        | some port => some (addToPort port lt d)
        | none => some (newPort lt d)
      else mapGet m q := by
  by_cases h : k = q
  · subst h
    rw [if_pos rfl]
    unfold updatePorts
    cases mapGet m k <;> simp [mapGet_mapSet_self]
  · rw [if_neg h]
    unfold updatePorts
    cases mapGet m k <;> simp [mapGet_mapSet_ne _ _ _ _ (Ne.symm h)]

theorem mapGet_foldPorts (sel : TransportLayer → String) (q : String) (obs : List packetInfo)
    (m : List (String × Port)) :
    mapGet (foldPorts sel m obs) q = obs.foldl (portStep sel q) (mapGet m q) := by
  induction obs generalizing m with
  | nil => rfl
  | cons i t ih =>
    simp only [foldPorts, List.foldl_cons] at ih ⊢
    rw [ih]
    congr 1
    unfold portStep
    cases i.p.TransportLayer with
    | none => rfl
    | some tl =>
      simp only [mapGet_updatePorts]

theorem portTotal_cons (sel : TransportLayer → String) (q : String) (i : packetInfo)
    (t : List packetInfo) :
    portTotal sel q (i :: t) =
      (if carries sel q i = true then i.p.DataLen else 0) + portTotal sel q t := by
  by_cases h : carries sel q i = true <;> simp [portTotal, List.filter_cons, h]

theorem portCount_cons (sel : TransportLayer → String) (q : String) (lt : LayerType)
    (i : packetInfo) (t : List packetInfo) :
    portCount sel q lt (i :: t) =
      (if carries sel q i = true ∧ isLayer lt i = true then 1 else 0) + portCount sel q lt t := by
  by_cases h : carries sel q i = true <;> by_cases h₂ : isLayer lt i = true <;>
    simp [portCount, List.filter_cons, h, h₂]
  omega

theorem portStep_of_not_carries (sel : TransportLayer → String) (q : String) (o : Option Port)
    (i : packetInfo) (h : carries sel q i = false) : portStep sel q o i = o := by
  unfold portStep
  unfold carries at h
  cases htl : i.p.TransportLayer with
  | none => rfl
  | some tl =>
    rw [htl] at h
    have : ¬ sel tl = q := by simpa using h
    simp [this]

theorem portStep_some_of_carries (sel : TransportLayer → String) (q : String) (port : Port)
    (i : packetInfo) (h : carries sel q i = true) :
    portStep sel q (some port) i =
      some
        { NumTotal := (port.NumTotal + i.p.DataLen % 2 ^ 64) % 2 ^ 64
          NumTCP :=
            if isLayer LayerType.LayerTypeTCP i = true then (port.NumTCP + 1) % 2 ^ 64
            else port.NumTCP
          NumUDP :=
            if isLayer LayerType.LayerTypeUDP i = true then (port.NumUDP + 1) % 2 ^ 64
            else port.NumUDP } := by
  unfold portStep
  unfold carries at h
  unfold isLayer
  cases htl : i.p.TransportLayer with
  | none =>
    rw [htl] at h
    exact absurd h (by simp)
  | some tl =>
    rw [htl] at h
    have hq : sel tl = q := by simpa using h
    simp only [hq, if_true]
    obtain ⟨lt, src, dst⟩ := tl
    cases lt <;> simp [addToPort, addUint64, dataLenOf, toUint64]

theorem portStep_none_of_carries (sel : TransportLayer → String) (q : String)
    (i : packetInfo) (h : carries sel q i = true) :
    portStep sel q none i =
      some
        { NumTotal := i.p.DataLen % 2 ^ 64
          NumTCP := if isLayer LayerType.LayerTypeTCP i = true then 1 else 0
          NumUDP := if isLayer LayerType.LayerTypeUDP i = true then 1 else 0 } := by
  unfold portStep
  unfold carries at h
  unfold isLayer
  cases htl : i.p.TransportLayer with
  | none =>
    rw [htl] at h
    exact absurd h (by simp)
  | some tl =>
    rw [htl] at h
    have hq : sel tl = q := by simpa using h
    simp only [hq, if_true]
    obtain ⟨lt, src, dst⟩ := tl
    cases lt <;> simp [newPort, addUint64, dataLenOf, toUint64]

theorem isLayer_TCP_UDP (i : packetInfo) :
    ¬ (isLayer LayerType.LayerTypeTCP i = true ∧ isLayer LayerType.LayerTypeUDP i = true) := by
  unfold isLayer
  cases i.p.TransportLayer with
  | none => simp
  | some tl =>
    obtain ⟨lt, src, dst⟩ := tl
    cases lt <;> simp

theorem foldl_portStep_some (sel : TransportLayer → String) (q : String)
    (obs : List packetInfo) (port : Port) (h₁ : port.NumTotal < 2 ^ 64)
    (h₂ : port.NumTCP < 2 ^ 64) (h₃ : port.NumUDP < 2 ^ 64) :
    obs.foldl (portStep sel q) (some port) =
      some
        { NumTotal := (port.NumTotal + portTotal sel q obs) % 2 ^ 64
          NumTCP := (port.NumTCP + portCount sel q LayerType.LayerTypeTCP obs) % 2 ^ 64
          NumUDP := (port.NumUDP + portCount sel q LayerType.LayerTypeUDP obs) % 2 ^ 64 } := by
  induction obs generalizing port with
  | nil =>
    simp only [List.foldl_nil, portTotal, portCount, List.filter_nil, List.map_nil,
      List.sum_nil, List.length_nil, Nat.add_zero]
    rw [Nat.mod_eq_of_lt h₁, Nat.mod_eq_of_lt h₂, Nat.mod_eq_of_lt h₃]
  | cons i t ih =>
    rw [List.foldl_cons, portTotal_cons, portCount_cons, portCount_cons]
    by_cases hc : carries sel q i = true
    · rw [portStep_some_of_carries sel q port i hc, ih]
      · simp only [hc, true_and, if_true, Port.mk.injEq, Option.some.injEq]
        by_cases ht : isLayer LayerType.LayerTypeTCP i = true <;>
          by_cases hu : isLayer LayerType.LayerTypeUDP i = true <;>
          simp only [ht, hu, if_true, if_false, Bool.false_eq_true, reduceIte] <;> omega
      · exact Nat.mod_lt _ (by norm_num)
      · show (if _ then _ else _) < _
        split
        · exact Nat.mod_lt _ (by norm_num)
        · exact h₂
      · show (if _ then _ else _) < _
        split
        · exact Nat.mod_lt _ (by norm_num)
        · exact h₃
    · have hc' : carries sel q i = false := by simpa using hc
      rw [portStep_of_not_carries sel q _ i hc', ih port h₁ h₂ h₃]
      simp [hc']

theorem foldl_portStep_none (sel : TransportLayer → String) (q : String)
    (obs : List packetInfo) :
    obs.foldl (portStep sel q) none =
      if obs.filter (carries sel q) = [] then none
      else
        some
          { NumTotal := portTotal sel q obs % 2 ^ 64
            NumTCP := portCount sel q LayerType.LayerTypeTCP obs % 2 ^ 64
            NumUDP := portCount sel q LayerType.LayerTypeUDP obs % 2 ^ 64 } := by
  induction obs with
  | nil => simp
  | cons i t ih =>
    rw [List.foldl_cons, portTotal_cons, portCount_cons, portCount_cons]
    by_cases hc : carries sel q i = true
    · have hne : List.filter (carries sel q) (i :: t) ≠ [] := by
        simp [List.filter_cons, hc]
      rw [portStep_none_of_carries sel q i hc, foldl_portStep_some, if_neg hne]
      · simp only [hc, if_true, true_and, Port.mk.injEq, Option.some.injEq, and_true]
        omega
      · exact Nat.mod_lt _ (by norm_num)
      · show (if _ then _ else _) < _
        split <;> norm_num
      · show (if _ then _ else _) < _
        split <;> norm_num
    · have hc' : carries sel q i = false := by simpa using hc
      rw [portStep_of_not_carries sel q _ i hc', ih]
      simp [List.filter_cons, hc']

theorem portsAgree_foldPorts (sel : TransportLayer → String) (obs : List packetInfo) :
    PortsAgree sel (foldPorts sel [] obs) obs := by
  have key : ∀ q, mapGet (foldPorts sel [] obs) q =
      if obs.filter (carries sel q) = [] then none
      else
        some
          { NumTotal := portTotal sel q obs % 2 ^ 64
            NumTCP := portCount sel q LayerType.LayerTypeTCP obs % 2 ^ 64
            NumUDP := portCount sel q LayerType.LayerTypeUDP obs % 2 ^ 64 } := by
    intro q
    rw [mapGet_foldPorts]
    exact foldl_portStep_none sel q obs
  constructor
  · intro q
    rw [key q]
    by_cases h : obs.filter (carries sel q) = []
    · rw [if_pos h]
      rw [List.filter_eq_nil_iff] at h
      constructor
      · rintro ⟨port, hport⟩
        exact absurd hport (by simp)
      · rintro ⟨i, hi, hc⟩
        exact absurd hc (h i hi)
    · rw [if_neg h]
      rw [List.filter_eq_nil_iff] at h
      push_neg at h
      exact ⟨fun _ => h, fun _ => ⟨_, rfl⟩⟩
  · intro q port hport
    rw [key q] at hport
    by_cases h : obs.filter (carries sel q) = []
    · rw [if_pos h] at hport
      exact absurd hport (by simp)
    · rw [if_neg h] at hport
      injection hport with hport
      subst hport
      exact ⟨rfl, rfl, rfl⟩

theorem runAddr_ports (E : Env) (w : World) (a : String) (obs : List packetInfo)
    (ha : a ≠ "") (hw : mapGet w.Items a = none) (hobs : obs ≠ []) :
    ∃ p, mapGet (runAddr E w a obs).Items a = some p ∧
      p.DstPorts = foldPorts TransportLayer.Dst [] obs ∧
      p.SrcPorts = foldPorts TransportLayer.Src [] obs := by
  cases obs with
  | nil => exact absurd rfl hobs
  | cons i t =>
    refine ⟨_, (runAddr_miss E a ha i t w hw).1, ?_, ?_⟩
    · rw [foldProfile_DstPorts, newProfile_DstPorts, ← foldPorts_append]
      rfl
    · rw [foldProfile_SrcPorts, newProfile_SrcPorts, ← foldPorts_append]
      rfl

theorem portTotal_append_le (sel : TransportLayer → String) (q : String)
    (obs : List packetInfo) (i : packetInfo) :
    portTotal sel q obs ≤ portTotal sel q (obs ++ [i]) := by
  simp only [portTotal, List.filter_append, List.map_append, List.sum_append]
  omega

theorem portsAgree_mono (sel : TransportLayer → String) (obs : List packetInfo)
    (i : packetInfo) (m m₂ : List (String × Port)) (hm : PortsAgree sel m obs)
    (hm₂ : PortsAgree sel m₂ (obs ++ [i])) (q : String) (port port₂ : Port)
    (hp : mapGet m q = some port) (hp₂ : mapGet m₂ q = some port₂)
    (hlt : portTotal sel q (obs ++ [i]) < 2 ^ 64) : port.NumTotal ≤ port₂.NumTotal := by
  have h1 := (hm.2 q port hp).1
  have h2 := (hm₂.2 q port₂ hp₂).1
  have h3 := portTotal_append_le sel q obs i
  rw [h1, h2]
  omega

/-- C4, as amended. After a non-empty sequence of getIPProfile calls for one
address that the store did not hold before, DstPorts has an entry for a port
exactly when some observation has a transport layer with that destination, and
the entry holds the sum of the data lengths of those observations, the number
of them that are TCP and the number that are UDP, each modulo 2^64; SrcPorts
does the same with the source port. From one update to the next the NumTotal
of an entry does not decrease as long as the sum of the data lengths stays
below 2^64. -/
theorem getIPProfile_ports_mod (E : Env) (w : World) (a : String) (obs : List packetInfo)
    (ha : a ≠ "") (hw : mapGet w.Items a = none) (hobs : obs ≠ []) :
    ∃ p, mapGet (runAddr E w a obs).Items a = some p ∧
      PortsAgree TransportLayer.Dst p.DstPorts obs ∧
      PortsAgree TransportLayer.Src p.SrcPorts obs ∧
      ∀ (i : packetInfo) (q : String),
        ∃ p₂, mapGet (runAddr E w a (obs ++ [i])).Items a = some p₂ ∧
          (∀ port port₂, mapGet p.DstPorts q = some port →
            mapGet p₂.DstPorts q = some port₂ →
            portTotal TransportLayer.Dst q (obs ++ [i]) < 2 ^ 64 →
            port.NumTotal ≤ port₂.NumTotal) ∧
          (∀ port port₂, mapGet p.SrcPorts q = some port →
            mapGet p₂.SrcPorts q = some port₂ →
            portTotal TransportLayer.Src q (obs ++ [i]) < 2 ^ 64 →
            port.NumTotal ≤ port₂.NumTotal) := by
  obtain ⟨p, hp, hd, hs⟩ := runAddr_ports E w a obs ha hw hobs
  have hdA : PortsAgree TransportLayer.Dst p.DstPorts obs := hd ▸ portsAgree_foldPorts _ obs
  have hsA : PortsAgree TransportLayer.Src p.SrcPorts obs := hs ▸ portsAgree_foldPorts _ obs
  refine ⟨p, hp, hdA, hsA, ?_⟩
  intro i q
  obtain ⟨p₂, hp₂, hd₂, hs₂⟩ := runAddr_ports E w a (obs ++ [i]) ha hw (by simp)
  have hdA₂ : PortsAgree TransportLayer.Dst p₂.DstPorts (obs ++ [i]) :=
    hd₂ ▸ portsAgree_foldPorts _ _
  have hsA₂ : PortsAgree TransportLayer.Src p₂.SrcPorts (obs ++ [i]) :=
    hs₂ ▸ portsAgree_foldPorts _ _
  refine ⟨p₂, hp₂, ?_, ?_⟩
  · intro port port₂ h1 h2 h3
    exact portsAgree_mono _ obs i _ _ hdA hdA₂ q port port₂ h1 h2 h3
  · intro port port₂ h1 h2 h3
    exact portsAgree_mono _ obs i _ _ hsA hsA₂ q port port₂ h1 h2 h3

/-- Witness for C4 as amended, on the scenario of the spec: lengths 100, 200 and
50 to destination port 443, twice over TCP and once over UDP, give the entry
with NumTotal 350, NumTCP 2 and NumUDP 1. -/
theorem getIPProfile_ports_mod_scenario :
    ∃ p, mapGet (runAddr exampleEnv World.init "10.0.0.5" scenarioPorts).Items "10.0.0.5" =
        some p ∧
      mapGet p.DstPorts "443" = some { NumTotal := 350, NumTCP := 2, NumUDP := 1 } := by
  obtain ⟨p, hp, hd, _⟩ :=
    getIPProfile_ports_mod exampleEnv World.init "10.0.0.5" scenarioPorts (by decide)
      (by decide) (by decide)
  refine ⟨p, hp, ?_⟩
  obtain ⟨port, hport⟩ :=
    (hd.1 "443").2 ⟨examplePacket 100 (some tcp443) 1, by decide, by decide⟩
  obtain ⟨h1, h2, h3⟩ := hd.2 "443" port hport
  have e1 : portTotal TransportLayer.Dst "443" scenarioPorts % 2 ^ 64 = 350 := by decide
  have e2 : portCount TransportLayer.Dst "443" LayerType.LayerTypeTCP scenarioPorts % 2 ^ 64 = 2 := by
    decide
  have e3 : portCount TransportLayer.Dst "443" LayerType.LayerTypeUDP scenarioPorts % 2 ^ 64 = 1 := by
    decide
  rw [hport]
  obtain ⟨n, t, u⟩ := port
  simp only at h1 h2 h3
  rw [h1, h2, h3, e1, e2, e3]

theorem portTotal_replicate (sel : TransportLayer → String) (q : String) (i : packetInfo)
    (h : carries sel q i = true) (n : Nat) :
    portTotal sel q (List.replicate n i) = n * i.p.DataLen := by
  induction n with
  | zero => simp [portTotal]
  | succ k ih =>
    rw [List.replicate_succ, portTotal_cons, ih, if_pos h]
    ring

/-- The destination port entry after `n` calls with the same observation. -/
theorem replicate_DstPort (E : Env) (a : String) (i : packetInfo) (q : String) (n : Nat)
    (ha : a ≠ "") (hn : 0 < n) (hc : carries TransportLayer.Dst q i = true) :
    ∃ p port, mapGet (runAddr E World.init a (List.replicate n i)).Items a = some p ∧
      mapGet p.DstPorts q = some port ∧ port.NumTotal = n * i.p.DataLen % 2 ^ 64 := by
  have hne : List.replicate n i ≠ [] := by
    intro h
    have hl := congrArg List.length h
    rw [List.length_replicate, List.length_nil] at hl
    omega
  obtain ⟨p, hp, hd, _⟩ := runAddr_ports E World.init a (List.replicate n i) ha rfl hne
  have hA := portsAgree_foldPorts TransportLayer.Dst (List.replicate n i)
  rw [← hd] at hA
  obtain ⟨port, hport⟩ := (hA.1 q).2 ⟨i, List.mem_replicate.2 ⟨by omega, rfl⟩, hc⟩
  refine ⟨p, port, hp, hport, ?_⟩
  rw [(hA.2 q port hport).1, portTotal_replicate TransportLayer.Dst q i hc n]

/-- C4, counterexample. Calls for one address with a TCP observation to destination
port 443 whose data is one gibibyte (2^30 bytes): after 2^34 - 1 calls the
entry holds NumTotal 2^64 - 2^30, and after one more call it holds 0, which
is smaller than before and is not the sum 2^64 of the data lengths. -/
theorem getIPProfile_ports_wrap :
    ∃ p₂ p₃ port₂ port₃,
      mapGet (runAddr exampleEnv World.init "10.0.0.5"
        (List.replicate (2 ^ 34 - 1) gibibytePacket)).Items "10.0.0.5" = some p₂ ∧
      mapGet (runAddr exampleEnv World.init "10.0.0.5"
        (List.replicate (2 ^ 34 - 1) gibibytePacket ++ [gibibytePacket])).Items "10.0.0.5" =
          some p₃ ∧
      mapGet p₂.DstPorts "443" = some port₂ ∧
      mapGet p₃.DstPorts "443" = some port₃ ∧
      port₂.NumTotal = 2 ^ 64 - 2 ^ 30 ∧
      port₃.NumTotal = 0 ∧
      port₃.NumTotal < port₂.NumTotal ∧
      port₃.NumTotal ≠
        portTotal TransportLayer.Dst "443"
          (List.replicate (2 ^ 34 - 1) gibibytePacket ++ [gibibytePacket]) := by
  have hc : carries TransportLayer.Dst "443" gibibytePacket = true := by decide
  have hlen : gibibytePacket.p.DataLen = 2 ^ 30 := rfl
  obtain ⟨p₂, port₂, h1, h2, h3⟩ :=
    replicate_DstPort exampleEnv "10.0.0.5" gibibytePacket "443" (2 ^ 34 - 1) (by decide)
      (by norm_num) hc
  obtain ⟨p₃, port₃, k1, k2, k3⟩ :=
    replicate_DstPort exampleEnv "10.0.0.5" gibibytePacket "443" (2 ^ 34 - 1 + 1) (by decide)
      (by norm_num) hc
  have hT := portTotal_replicate TransportLayer.Dst "443" gibibytePacket hc (2 ^ 34 - 1 + 1)
  rw [List.replicate_succ'] at k1 hT
  rw [hlen] at h3 k3 hT
  have e2 : (2 ^ 34 - 1) * 2 ^ 30 % 2 ^ 64 = 2 ^ 64 - 2 ^ 30 := by norm_num
  have e3 : (2 ^ 34 - 1 + 1) * 2 ^ 30 % 2 ^ 64 = 0 := by norm_num
  have e4 : (2 ^ 34 - 1 + 1) * 2 ^ 30 = 2 ^ 64 := by norm_num
  rw [e2] at h3
  rw [e3] at k3
  rw [e4] at hT
  refine ⟨p₂, p₃, port₂, port₃, h1, k1, h2, k2, h3, k3, ?_, ?_⟩
  · rw [h3, k3]
    norm_num
  · rw [k3, hT]
    norm_num

/-! ## Fingerprints -/

theorem updateProfile_Ja3 (E : Env) (p : IPProfile) (i : packetInfo) :
    (updateProfile E p i).1.Ja3 = ja3Step E p.Ja3 (ja3HashOf i.p) := rfl

theorem updateProfile_calls (E : Env) (p : IPProfile) (i : packetInfo) :
    (updateProfile E p i).2 =
      (ja3Lookups E p.Ja3 [ja3HashOf i.p]).map Call.LookupJa3 := by
  simp only [updateProfile, ja3Lookups, List.append_nil]
  by_cases h : ja3HashOf i.p = ""
  · simp [h]
  · cases hm : mapGet p.Ja3 (ja3HashOf i.p) <;> simp [h]

theorem ja3Lookups_cons (E : Env) (m : List (String × String)) (h : String) (t : List String) :
    ja3Lookups E m (h :: t) = ja3Lookups E m [h] ++ ja3Lookups E (ja3Step E m h) t := by
  simp [ja3Lookups]

theorem foldProfile_Ja3 (E : Env) (obs : List packetInfo) (p : IPProfile) :
    (foldProfile E p obs).Ja3 =
      (obs.map (fun i => ja3HashOf i.p)).foldl (ja3Step E) p.Ja3 := by
  induction obs generalizing p with
  | nil => rfl
  | cons i t ih =>
    rw [foldProfile_cons, ih, updateProfile_Ja3]
    rfl

theorem foldCalls_eq (E : Env) (obs : List packetInfo) (p : IPProfile) :
    foldCalls E p obs =
      (ja3Lookups E p.Ja3 (obs.map (fun i => ja3HashOf i.p))).map Call.LookupJa3 := by
  induction obs generalizing p with
  | nil => rfl
  | cons i t ih =>
    rw [List.map_cons, ja3Lookups_cons, List.map_append, ← updateProfile_calls,
      ← updateProfile_Ja3, ← ih]
    rfl

theorem mapKeys_foldl_ja3Step (E : Env) (hs : List String) (m : List (String × String)) :
    mapKeys (hs.foldl (ja3Step E) m) = mapKeys m ++ ja3Lookups E m hs := by
  induction hs generalizing m with
  | nil => simp [ja3Lookups]
  | cons h t ih =>
    rw [List.foldl_cons, ih, ja3Lookups_cons, ← List.append_assoc]
    congr 1
    unfold ja3Step
    simp only [ja3Lookups, List.append_nil]
    by_cases hh : h = ""
    · simp [hh]
    · cases hm : mapGet m h with
      | none =>
        simp only [hh, ne_eq, not_false_eq_true, if_true]
        exact mapKeys_mapSet_of_not_mem m h _ ((not_mem_mapKeys_iff m h).2 hm)
      | some l => simp [hh]

theorem nodup_mapKeys_foldl_ja3Step (E : Env) (hs : List String) (m : List (String × String))
    (hm : (mapKeys m).Nodup) : (mapKeys (hs.foldl (ja3Step E) m)).Nodup := by
  induction hs generalizing m with
  | nil => exact hm
  | cons h t ih =>
    rw [List.foldl_cons]
    apply ih
    unfold ja3Step
    by_cases hh : h = ""
    · simpa [hh] using hm
    · cases hg : mapGet m h with
      | none =>
        simp only [hh, ne_eq, not_false_eq_true, if_true]
        exact nodup_mapKeys_mapSet m h _ hm
      | some l => simpa [hh] using hm

theorem mem_mapKeys_foldl_ja3Step (E : Env) (hs : List String) (m : List (String × String))
    (k : String) :
    k ∈ mapKeys (hs.foldl (ja3Step E) m) ↔ k ∈ mapKeys m ∨ (k ≠ "" ∧ k ∈ hs) := by
  induction hs generalizing m with
  | nil => simp
  | cons h t ih =>
    rw [List.foldl_cons, ih]
    have hstep : k ∈ mapKeys (ja3Step E m h) ↔ k ∈ mapKeys m ∨ (k ≠ "" ∧ k = h) := by
      unfold ja3Step
      by_cases hh : h = ""
      · subst hh
        simp
      · cases hg : mapGet m h with
        | none =>
          simp only [hh, ne_eq, not_false_eq_true, if_true]
          rw [mem_mapKeys_mapSet]
          constructor
          · rintro (h1 | h1)
            · exact Or.inr ⟨h1 ▸ hh, h1⟩
            · exact Or.inl h1
          · rintro (h1 | ⟨_, h1⟩)
            · exact Or.inr h1
            · exact Or.inl h1
        | some l =>
          simp only [hh, ne_eq, not_false_eq_true, if_true]
          constructor
          · exact Or.inl
          · rintro (h1 | ⟨_, h1⟩)
            · exact h1
            · subst h1
              exact (mem_mapKeys_iff m k).2 ⟨l, hg⟩
    rw [hstep, List.mem_cons]
    tauto

theorem mapGet_foldl_ja3Step (E : Env) (hs : List String) (m : List (String × String))
    (k l : String) (h : mapGet (hs.foldl (ja3Step E) m) k = some l) :
    mapGet m k = some l ∨ l = E.LookupJa3 k := by
  induction hs generalizing m with
  | nil => exact Or.inl h
  | cons x t ih =>
    rw [List.foldl_cons] at h
    rcases ih _ h with h1 | h1
    · unfold ja3Step at h1
      by_cases hx : x = ""
      · simp only [hx, ne_eq, not_true_eq_false, if_false] at h1
        exact Or.inl h1
      · cases hg : mapGet m x with
        | some v =>
          simp only [hx, ne_eq, not_false_eq_true, if_true, hg] at h1
          exact Or.inl h1
        | none =>
          simp only [hx, ne_eq, not_false_eq_true, if_true, hg] at h1
          by_cases hk : k = x
          · subst hk
            rw [mapGet_mapSet_self] at h1
            injection h1 with h1
            exact Or.inr h1.symm
          · rw [mapGet_mapSet_ne _ _ _ _ hk] at h1
            exact Or.inl h1
    · exact Or.inr h1

theorem newProfile_Ja3 (E : Env) (a : String) (i : packetInfo) :
    (newProfile E a i).1.Ja3 = ja3Step E [] (ja3HashOf i.p) := by
  simp only [newProfile, ja3Step, mapGet]

theorem newProfile_calls (E : Env) (a : String) (i : packetInfo) :
    (newProfile E a i).2 =
      [Call.LookupGeolocation a] ++ (ja3Lookups E [] [ja3HashOf i.p]).map Call.LookupJa3 ++
        [if E.LocalDNS then Call.LookupDNSNameLocal a else Call.LookupDNSNames a] := by
  simp only [newProfile, ja3Lookups, mapGet, List.append_nil]
  by_cases h : ja3HashOf i.p = "" <;> simp [h]

theorem count_map_LookupJa3 (h : String) (K : List String) :
    (K.map Call.LookupJa3).count (Call.LookupJa3 h) = K.count h := by
  induction K with
  | nil => rfl
  | cons x t ih =>
    rw [List.map_cons, List.count_cons, List.count_cons, ih]
    by_cases hx : x = h <;> simp [hx]

theorem filter_isJa3_map (K : List String) :
    (K.map Call.LookupJa3).filter Call.isJa3 = K.map Call.LookupJa3 := by
  induction K with
  | nil => rfl
  | cons x t ih => simp [List.filter_cons, Call.isJa3, ih]

/-- The fingerprint map and the resolver calls of a sequence for a new address,
in terms of the hashes of the observations. -/
theorem runAddr_Ja3 (E : Env) (w : World) (a : String) (obs : List packetInfo)
    (ha : a ≠ "") (hw : mapGet w.Items a = none) (hobs : obs ≠ []) :
    ∃ p cs, mapGet (runAddr E w a obs).Items a = some p ∧
      (runAddr E w a obs).calls = w.calls ++ cs ∧
      p.Ja3 = (obs.map (fun i => ja3HashOf i.p)).foldl (ja3Step E) [] ∧
      (∀ h, cs.count (Call.LookupJa3 h) = (mapKeys p.Ja3).count h) ∧
      cs.filter Call.isJa3 = (mapKeys p.Ja3).map Call.LookupJa3 := by
  cases obs with
  | nil => exact absurd rfl hobs
  | cons i t =>
    obtain ⟨h1, h2⟩ := runAddr_miss E a ha i t w hw
    have hJ : (foldProfile E (newProfile E a i).1 t).Ja3 =
        ((i :: t).map (fun i => ja3HashOf i.p)).foldl (ja3Step E) [] := by
      rw [foldProfile_Ja3, newProfile_Ja3]
      rfl
    have hK : mapKeys (foldProfile E (newProfile E a i).1 t).Ja3 =
        ja3Lookups E [] ((i :: t).map (fun i => ja3HashOf i.p)) := by
      rw [hJ, mapKeys_foldl_ja3Step]
      rfl
    have hL : ja3Lookups E [] ((i :: t).map (fun i => ja3HashOf i.p)) =
        ja3Lookups E [] [ja3HashOf i.p] ++
          ja3Lookups E (newProfile E a i).1.Ja3 (t.map (fun i => ja3HashOf i.p)) := by
      rw [List.map_cons, ja3Lookups_cons, newProfile_Ja3]
    refine ⟨_, (newProfile E a i).2 ++ foldCalls E (newProfile E a i).1 t, h1, ?_, hJ, ?_, ?_⟩
    · rw [h2, List.append_assoc]
    · intro h
      rw [hK, hL, newProfile_calls, foldCalls_eq]
      simp only [List.count_append, count_map_LookupJa3]
      have e1 : List.count (Call.LookupJa3 h) [Call.LookupGeolocation a] = 0 := by
        simp [List.count_cons]
      have e2 : List.count (Call.LookupJa3 h)
          [if E.LocalDNS then Call.LookupDNSNameLocal a else Call.LookupDNSNames a] = 0 := by
        cases E.LocalDNS <;> simp [List.count_cons]
      rw [e1, e2]
      omega
    · rw [hK, hL, newProfile_calls, foldCalls_eq]
      simp only [List.filter_append, filter_isJa3_map, List.map_append]
      have e1 : List.filter Call.isJa3 [Call.LookupGeolocation a] = [] := by
        simp [List.filter_cons, Call.isJa3]
      have e2 : List.filter Call.isJa3
          [if E.LocalDNS then Call.LookupDNSNameLocal a else Call.LookupDNSNames a] = [] := by
        cases E.LocalDNS <;> simp [List.filter_cons, Call.isJa3]
      rw [e1, e2]
      simp

/-- C7. After a non-empty sequence of getIPProfile calls for one address that the
store did not hold before, the Ja3 map of the profile has pairwise distinct
keys, namely the non-empty fingerprint hashes of the observations (the client
digest, else the server digest), each mapped to the label LookupJa3 gives for
it, and among the resolver calls made by the sequence LookupJa3 is called
exactly once with each of these hashes and with no other argument; the number
of entries and the number of LookupJa3 calls are both the number of distinct
non-empty hashes. -/
theorem getIPProfile_Ja3_once (E : Env) (w : World) (a : String) (obs : List packetInfo)
    (ha : a ≠ "") (hw : mapGet w.Items a = none) (hobs : obs ≠ []) :
    ∃ p cs, mapGet (runAddr E w a obs).Items a = some p ∧
      (runAddr E w a obs).calls = w.calls ++ cs ∧
      (mapKeys p.Ja3).Nodup ∧
      (∀ h, h ∈ mapKeys p.Ja3 ↔ h ≠ "" ∧ h ∈ obs.map (fun i => ja3HashOf i.p)) ∧
      (∀ h l, mapGet p.Ja3 h = some l → l = E.LookupJa3 h) ∧
      (∀ h, cs.count (Call.LookupJa3 h) =
        if h ≠ "" ∧ h ∈ obs.map (fun i => ja3HashOf i.p) then 1 else 0) ∧
      p.Ja3.length =
        ((obs.map (fun i => ja3HashOf i.p)).filter (fun h => h ≠ "")).dedup.length ∧
      (cs.filter Call.isJa3).length =
        ((obs.map (fun i => ja3HashOf i.p)).filter (fun h => h ≠ "")).dedup.length := by
  obtain ⟨p, cs, hp, hcs, hJ, hcount, hfilter⟩ := runAddr_Ja3 E w a obs ha hw hobs
  have hnodup : (mapKeys p.Ja3).Nodup := by
    rw [hJ]
    exact nodup_mapKeys_foldl_ja3Step E _ [] (by simp [mapKeys])
  have hmem : ∀ h, h ∈ mapKeys p.Ja3 ↔ h ≠ "" ∧ h ∈ obs.map (fun i => ja3HashOf i.p) := by
    intro h
    rw [hJ, mem_mapKeys_foldl_ja3Step]
    simp [mapKeys]
  have hlen : (mapKeys p.Ja3).length =
      ((obs.map (fun i => ja3HashOf i.p)).filter (fun h => h ≠ "")).dedup.length := by
    apply List.Perm.length_eq
    rw [List.perm_ext_iff_of_nodup hnodup (List.nodup_dedup _)]
    intro h
    rw [hmem h, List.mem_dedup, List.mem_filter]
    simp [and_comm]
  refine ⟨p, cs, hp, hcs, hnodup, hmem, ?_, ?_, ?_, ?_⟩
  · intro h l hl
    rw [hJ] at hl
    rcases mapGet_foldl_ja3Step E _ [] h l hl with h1 | h1
    · simp [mapGet] at h1
    · exact h1
  · intro h
    rw [hcount h, List.count_eq_of_nodup hnodup]
    by_cases hk : h ∈ mapKeys p.Ja3
    · rw [if_pos hk, if_pos ((hmem h).1 hk)]
    · rw [if_neg hk, if_neg (fun hh => hk ((hmem h).2 hh))]
  · rw [← hlen]
    simp [mapKeys]
  · rw [hfilter, List.length_map, hlen]

/-- Witness for C7, on the scenario of the spec: five updates carrying two distinct
hashes leave two entries in Ja3 and make two LookupJa3 calls. -/
theorem getIPProfile_Ja3_once_scenario :
    ∃ p cs, mapGet (runAddr exampleEnv World.init "10.0.0.5" scenarioJa3).Items "10.0.0.5" =
        some p ∧
      (runAddr exampleEnv World.init "10.0.0.5" scenarioJa3).calls = World.init.calls ++ cs ∧
      p.Ja3.length = 2 ∧ (cs.filter Call.isJa3).length = 2 := by
  obtain ⟨p, cs, hp, hcs, _, _, _, _, h1, h2⟩ :=
    getIPProfile_Ja3_once exampleEnv World.init "10.0.0.5" scenarioJa3 (by decide) (by decide)
      (by decide)
  have e : ((scenarioJa3.map (fun i => ja3HashOf i.p)).filter (fun h => h ≠ "")).dedup.length =
      2 := by decide
  exact ⟨p, cs, hp, hcs, h1.trans e, h2.trans e⟩

/-- Witness for C3, on the scenario of the spec: lengths 100, 200 and 50 give
Bytes 350. -/
theorem getIPProfile_Bytes_sum_scenario :
    ∃ p, mapGet (runAddr exampleEnv World.init "10.0.0.5" scenarioPorts).Items "10.0.0.5" =
        some p ∧ p.Bytes = 350 := by
  obtain ⟨p, hp, hb⟩ :=
    (getIPProfile_Bytes_sum exampleEnv World.init "10.0.0.5" scenarioPorts (by decide)
      (by decide) (by decide)).1
  exact ⟨p, hp, hb.trans (by decide)⟩

/-! ## The hit path leaves the rest alone -/

theorem updateProfile_calls_isJa3 (E : Env) (p : IPProfile) (i : packetInfo) :
    ∀ c ∈ (updateProfile E p i).2, ∃ h, c = Call.LookupJa3 h := by
  intro c hc
  rw [updateProfile_calls] at hc
  obtain ⟨h, _, rfl⟩ := List.mem_map.1 hc
  exact ⟨h, rfl⟩

/-- C10. A call of getIPProfile for an address the store already holds leaves the
Addr, Geolocation, DNSNames and TimestampFirst of its profile as they were,
makes no resolver call other than LookupJa3 (so no geolocation and no DNS
lookup), leaves the keys of the store as they were, and leaves the profile of
every other address as it was. -/
theorem getIPProfile_hit_frame (E : Env) (w : World) (a : String) (i : packetInfo)
    (p : IPProfile) (hp : mapGet w.Items a = some p) :
    ∃ p₂ cs, mapGet (getIPProfile E w a i).2.Items a = some p₂ ∧
      p₂.Addr = p.Addr ∧ p₂.Geolocation = p.Geolocation ∧ p₂.DNSNames = p.DNSNames ∧
      p₂.TimestampFirst = p.TimestampFirst ∧
      (getIPProfile E w a i).2.calls = w.calls ++ cs ∧
      (∀ x, Call.LookupGeolocation x ∉ cs ∧ Call.LookupDNSNameLocal x ∉ cs ∧
        Call.LookupDNSNames x ∉ cs) ∧
      mapKeys (getIPProfile E w a i).2.Items = mapKeys w.Items ∧
      ∀ k, k ≠ a → mapGet (getIPProfile E w a i).2.Items k = mapGet w.Items k := by
  by_cases ha : a = ""
  · subst ha
    refine ⟨p, [], ?_, rfl, rfl, rfl, rfl, ?_, ?_, ?_, ?_⟩
    · rw [getIPProfile_empty]
      exact hp
    · rw [getIPProfile_empty]
      simp
    · intro x
      simp
    · rw [getIPProfile_empty]
    · intro k _
      rw [getIPProfile_empty]
  · refine ⟨(updateProfile E p i).1, (updateProfile E p i).2, ?_, rfl, rfl, rfl, rfl, ?_, ?_,
      ?_, ?_⟩
    · rw [mapGet_getIPProfile_self E w a i ha, hp]
      rfl
    · rw [getIPProfile_calls E w a i ha, hp]
    · intro x
      refine ⟨?_, ?_, ?_⟩ <;>
      · intro hx
        obtain ⟨h, hh⟩ := updateProfile_calls_isJa3 E p i _ hx
        exact Call.noConfusion hh
    · rw [getIPProfile_items E w a i ha]
      exact mapKeys_mapSet_of_mem _ _ _ ((mem_mapKeys_iff _ _).2 ⟨p, hp⟩)
    · intro k hk
      exact mapGet_getIPProfile_ne E w a k i hk

/-- Witness for C10: a second call for 10.0.0.5 on the store left by a first call
for 10.0.0.5 and a call for 10.0.0.9. -/
theorem getIPProfile_hit_frame_example :
    ∃ p₂, mapGet (getIPProfile exampleEnv
        (runCalls exampleEnv World.init
          [("10.0.0.5", examplePacket 100 (some tcp443) 1),
            ("10.0.0.9", examplePacket 80 (some udp443) 2)])
        "10.0.0.5" (examplePacket 200 (some tcp443) 3)).2.Items "10.0.0.5" = some p₂ ∧
      p₂.Addr = "10.0.0.5" ∧ p₂.Geolocation = "DE" ∧ p₂.DNSNames = ["host.local"] ∧
      p₂.TimestampFirst = 1 := by
  obtain ⟨p₂, _, h, h1, h2, h3, h4, _⟩ :=
    getIPProfile_hit_frame exampleEnv
      (runCalls exampleEnv World.init
        [("10.0.0.5", examplePacket 100 (some tcp443) 1),
          ("10.0.0.9", examplePacket 80 (some udp443) 2)])
      "10.0.0.5" (examplePacket 200 (some tcp443) 3)
      (newProfile exampleEnv "10.0.0.5" (examplePacket 100 (some tcp443) 1)).1 (by decide)
  exact ⟨p₂, h, h1, h2, h3, h4⟩

/-! ## Timestamps -/

theorem foldProfile_TimestampFirst (E : Env) (obs : List packetInfo) (p : IPProfile) :
    (foldProfile E p obs).TimestampFirst = p.TimestampFirst := by
  induction obs generalizing p with
  | nil => rfl
  | cons i t ih =>
    rw [foldProfile_cons, ih]
    rfl

/-- After a sequence of at least two calls for a new address, TimestampFirst is
the timestamp of the first call and TimestampLast that of the last call. -/
theorem getIPProfile_timestamps (E : Env) (w : World) (a : String) (i : packetInfo)
    (obs : List packetInfo) (j : packetInfo) (ha : a ≠ "") (hw : mapGet w.Items a = none) :
    ∃ p, mapGet (runAddr E w a (i :: (obs ++ [j]))).Items a = some p ∧
      p.TimestampFirst = i.timestamp ∧ p.TimestampLast = j.timestamp := by
  refine ⟨_, (runAddr_miss E a ha i (obs ++ [j]) w hw).1, ?_, ?_⟩
  · rw [foldProfile_TimestampFirst]
    rfl
  · rw [foldProfile_append]
    rfl

/-- C8, the failing input. After one call of getIPProfile for a new address with
an observation of timestamp 1600000000, the profile has TimestampFirst
1600000000 and TimestampLast 0, the zero value: the creating call does not set
TimestampLast. -/
theorem getIPProfile_first_TimestampLast :
    ∃ p, mapGet (runAddr exampleEnv World.init "10.0.0.5"
        [examplePacket 100 (some tcp443) 1600000000]).Items "10.0.0.5" = some p ∧
      p.NumPackets = 1 ∧ p.TimestampFirst = 1600000000 ∧ p.TimestampLast = 0 ∧
      p.TimestampLast ≠ (examplePacket 100 (some tcp443) 1600000000).timestamp :=
  ⟨_, rfl, by decide, by decide, by decide, by decide⟩

/-! ## Server names -/

/-- On the hit path an observation whose hello has an empty server name, or that
has no hello, leaves SNIs as it is. -/
theorem updateProfile_SNIs_of_empty (E : Env) (p : IPProfile) (i : packetInfo)
    (h : ∀ ch, i.p.GetClientHelloBasic = some ch → ch.SNI = "") :
    (updateProfile E p i).1.SNIs = p.SNIs := by
  simp only [updateProfile]
  cases hc : i.p.GetClientHelloBasic with
  | none => rfl
  | some ch => simp [h ch hc]

/-- C9, the failing input. The first observation of an address carries a client
hello without a server name: the new profile has the entry SNIs[""] = 1. -/
theorem getIPProfile_first_empty_SNI :
    ∃ p, mapGet (runAddr exampleEnv World.init "10.0.0.5"
        [{ examplePacket 100 (some tcp443) 1 with
            p.GetClientHelloBasic := some { SNI := "" } }]).Items "10.0.0.5" = some p ∧
      mapGet p.SNIs "" = some 1 ∧ "" ∈ mapKeys p.SNIs :=
  ⟨_, rfl, by decide, by decide⟩

/-! ## Two concurrent first-time calls -/

/-- Running a goroutine alone from an empty store takes the miss path and ends
with the profile of the one call. -/
theorem runSchedule_alone (E : Env) (a : String) (i₁ i₂ : packetInfo) (ha : a ≠ "") :
    (runSchedule E (twoCalls a i₁ i₂) [false, false, false]).g₁.pc = Pc.done (some 0) ∧
    (runSchedule E (twoCalls a i₁ i₂) [false, false, false]).shared.profile a =
      some (newProfile E a i₁).1 := by
  simp [runSchedule, twoCalls, Goroutine.step, Shared.profile, ha, mapGet, mapSet]

/-- When the second call starts after the first has returned, it takes the hit
path: both return the same pointer and the profile counts both observations. -/
theorem runSchedule_sequential (E : Env) (a : String) (i₁ i₂ : packetInfo) (ha : a ≠ "") :
    (runSchedule E (twoCalls a i₁ i₂) [false, false, false, true, true]).g₁.pc =
      Pc.done (some 0) ∧
    (runSchedule E (twoCalls a i₁ i₂) [false, false, false, true, true]).g₂.pc =
      Pc.done (some 0) ∧
    (runSchedule E (twoCalls a i₁ i₂) [false, false, false, true, true]).shared.profile a =
      some (updateProfile E (newProfile E a i₁).1 i₂).1 := by
  simp [runSchedule, twoCalls, Goroutine.step, Shared.profile, ha, mapGet, mapSet]

/-- When both calls look the address up before either inserts, both take the miss
path, whatever the address and the observations: they return different
pointers, two profiles are allocated, and the store ends with the profile
built by the call that inserts last, which counts one packet. -/
theorem runSchedule_both_miss (E : Env) (a : String) (i₁ i₂ : packetInfo) (ha : a ≠ "") :
    (runSchedule E (twoCalls a i₁ i₂) [false, true, false, false, true, true]).g₁.pc =
      Pc.done (some 0) ∧
    (runSchedule E (twoCalls a i₁ i₂) [false, true, false, false, true, true]).g₂.pc =
      Pc.done (some 1) ∧
    (runSchedule E (twoCalls a i₁ i₂)
      [false, true, false, false, true, true]).shared.heap.length = 2 ∧
    (runSchedule E (twoCalls a i₁ i₂) [false, true, false, false, true, true]).shared.profile a =
      some (newProfile E a i₂).1 := by
  simp [runSchedule, twoCalls, Goroutine.step, Shared.profile, ha, mapGet, mapSet]

/-- C2, the failing input. Two calls for the new address 10.0.0.5, with
observations of 100 and 200 bytes, interleaved so that the second call looks
the address up between the lookup and the insertion of the first: both calls
run to their return, they return different profiles (pointers 0 and 1), and
the profile the store holds afterwards has NumPackets 1 and Bytes 200. -/
theorem getIPProfile_race_lost_update :
    (runSchedule exampleEnv
      (twoCalls "10.0.0.5" (examplePacket 100 (some tcp443) 1)
        (examplePacket 200 (some tcp443) 2))
      [false, true, false, false, true, true]).g₁.pc = Pc.done (some 0) ∧
    (runSchedule exampleEnv
      (twoCalls "10.0.0.5" (examplePacket 100 (some tcp443) 1)
        (examplePacket 200 (some tcp443) 2))
      [false, true, false, false, true, true]).g₂.pc = Pc.done (some 1) ∧
    ((runSchedule exampleEnv
      (twoCalls "10.0.0.5" (examplePacket 100 (some tcp443) 1)
        (examplePacket 200 (some tcp443) 2))
      [false, true, false, false, true, true]).shared.profile "10.0.0.5").map
        (fun p => (p.NumPackets, p.Bytes)) = some (1, 200) := by
  decide

/-! ## NewChanWriter -/

theorem NewChanWriter_of_flag (R : Runtime) (s : IOState)
    (h : s.wc.Buffer = true ∨ s.wc.Compress = true) :
    (NewChanWriter R s).1 =
      Result.panic "buffering or compression cannot be activated when running using writeChan" ∧
    (NewChanWriter R s).2.chans = s.chans := by
  unfold NewChanWriter
  by_cases hm : s.wc.MemBufferSize ≤ 0 <;> simp [hm, h]

theorem NewChanWriter_of_bad_size (R : Runtime) (s : IOState) (hb : s.wc.Buffer = false)
    (hc : s.wc.Compress = false)
    (hsize : s.wc.ChanSize < 0 ∨ (R.maxChanCap : Int) < s.wc.ChanSize) :
    (NewChanWriter R s).1 = Result.panic "makechan: size out of range" ∧
    (NewChanWriter R s).2.chans = s.chans := by
  unfold NewChanWriter
  by_cases hm : s.wc.MemBufferSize ≤ 0 <;> simp [hm, hb, hc, NewChanProtoWriter, hsize]

theorem NewChanWriter_of_no_memory (R : Runtime) (s : IOState) (hb : s.wc.Buffer = false)
    (hc : s.wc.Compress = false) (h0 : 0 ≤ s.wc.ChanSize)
    (h1 : s.wc.ChanSize ≤ (R.maxChanCap : Int))
    (ha : R.canAllocate s.wc.ChanSize.toNat = false) :
    (NewChanWriter R s).1 = Result.fatal "runtime: out of memory" ∧
    (NewChanWriter R s).2.chans = s.chans := by
  have hsize : ¬ (s.wc.ChanSize < 0 ∨ (R.maxChanCap : Int) < s.wc.ChanSize) := by omega
  unfold NewChanWriter
  by_cases hm : s.wc.MemBufferSize ≤ 0 <;> simp [hm, hb, hc, NewChanProtoWriter, hsize, ha]

theorem NewChanWriter_of_good_size (R : Runtime) (s : IOState) (hb : s.wc.Buffer = false)
    (hc : s.wc.Compress = false) (h0 : 0 ≤ s.wc.ChanSize)
    (h1 : s.wc.ChanSize ≤ (R.maxChanCap : Int))
    (ha : R.canAllocate s.wc.ChanSize.toNat = true) :
    (NewChanWriter R s).1 =
      Result.ok
        { bWriter := none
          gWriter := none
          dWriter := some (WriterTarget.cWriter { ch := s.chans.length })
          cWriter := some { ch := s.chans.length } } ∧
    (NewChanWriter R s).2.chans =
      s.chans ++ [{ cap := s.wc.ChanSize.toNat, buf := [], closed := false }] := by
  have hsize : ¬ (s.wc.ChanSize < 0 ∨ (R.maxChanCap : Int) < s.wc.ChanSize) := by omega
  unfold NewChanWriter
  by_cases hm : s.wc.MemBufferSize ≤ 0 <;>
    simp [hm, hb, hc, NewChanProtoWriter, hsize, ha, chooseChain, setConcurrency]

theorem NewChanWriter_ok_iff (R : Runtime) (s : IOState) :
    (∃ w, (NewChanWriter R s).1 = Result.ok w) ↔
      (s.wc.Buffer = false ∧ s.wc.Compress = false ∧ 0 ≤ s.wc.ChanSize ∧
        s.wc.ChanSize ≤ (R.maxChanCap : Int) ∧ R.canAllocate s.wc.ChanSize.toNat = true) := by
  constructor
  · rintro ⟨w, hw⟩
    by_cases hf : s.wc.Buffer = true ∨ s.wc.Compress = true
    · rw [(NewChanWriter_of_flag R s hf).1] at hw
      exact Result.noConfusion hw
    · have hb : s.wc.Buffer = false := by
        cases h : s.wc.Buffer
        · rfl
        · exact absurd (Or.inl h) hf
      have hc : s.wc.Compress = false := by
        cases h : s.wc.Compress
        · rfl
        · exact absurd (Or.inr h) hf
      by_cases hsize : s.wc.ChanSize < 0 ∨ (R.maxChanCap : Int) < s.wc.ChanSize
      · rw [(NewChanWriter_of_bad_size R s hb hc hsize).1] at hw
        exact Result.noConfusion hw
      · cases ha : R.canAllocate s.wc.ChanSize.toNat
        · rw [(NewChanWriter_of_no_memory R s hb hc (by omega) (by omega) ha).1] at hw
          exact Result.noConfusion hw
        · exact ⟨hb, hc, by omega, by omega, rfl⟩
  · rintro ⟨hb, hc, h0, h1, ha⟩
    exact ⟨_, (NewChanWriter_of_good_size R s hb hc h0 h1 ha).1⟩

/-- C5, as amended. NewChanWriter panics exactly when Buffer or Compress is set
or ChanSize fails the range check of the channel creation (it is negative, or
beyond the largest capacity), and it returns a writer exactly when both flags
are false and the runtime makes a channel of capacity ChanSize. With Buffer or Compress set it panics before the
channel sink is made: no channel exists that did not exist before. With both
flags false and a ChanSize the runtime makes a channel of (in range, memory
found) it returns a writer with no buffer and no compressor whose framing
writer targets its channel sink, a new and empty channel of capacity ChanSize;
with a ChanSize in range for which no memory is found the process exits with
a fatal error, without a writer and without a channel. -/
theorem NewChanWriter_outcome (R : Runtime) (s : IOState) :
    ((∃ msg, (NewChanWriter R s).1 = Result.panic msg) ↔
      (s.wc.Buffer = true ∨ s.wc.Compress = true ∨ s.wc.ChanSize < 0 ∨
        (R.maxChanCap : Int) < s.wc.ChanSize)) ∧
    ((∃ w, (NewChanWriter R s).1 = Result.ok w) ↔
      (s.wc.Buffer = false ∧ s.wc.Compress = false ∧ 0 ≤ s.wc.ChanSize ∧
        s.wc.ChanSize ≤ (R.maxChanCap : Int) ∧ R.canAllocate s.wc.ChanSize.toNat = true)) ∧
    (s.wc.Buffer = true ∨ s.wc.Compress = true →
      (NewChanWriter R s).1 =
        Result.panic
          "buffering or compression cannot be activated when running using writeChan" ∧
      (NewChanWriter R s).2.chans = s.chans) ∧
    (s.wc.Buffer = false → s.wc.Compress = false → 0 ≤ s.wc.ChanSize →
      s.wc.ChanSize ≤ (R.maxChanCap : Int) → R.canAllocate s.wc.ChanSize.toNat = true →
      (NewChanWriter R s).1 =
        Result.ok
          { bWriter := none
            gWriter := none
            dWriter := some (WriterTarget.cWriter { ch := s.chans.length })
            cWriter := some { ch := s.chans.length } } ∧
      (NewChanWriter R s).2.chans =
        s.chans ++ [{ cap := s.wc.ChanSize.toNat, buf := [], closed := false }]) ∧
    (s.wc.Buffer = false → s.wc.Compress = false → 0 ≤ s.wc.ChanSize →
      s.wc.ChanSize ≤ (R.maxChanCap : Int) → R.canAllocate s.wc.ChanSize.toNat = false →
      (NewChanWriter R s).1 = Result.fatal "runtime: out of memory" ∧
      (NewChanWriter R s).2.chans = s.chans) := by
  refine ⟨?_, NewChanWriter_ok_iff R s, NewChanWriter_of_flag R s,
    NewChanWriter_of_good_size R s, NewChanWriter_of_no_memory R s⟩
  by_cases hf : s.wc.Buffer = true ∨ s.wc.Compress = true
  · constructor
    · intro _
      rcases hf with hf | hf
      · exact Or.inl hf
      · exact Or.inr (Or.inl hf)
    · intro _
      exact ⟨_, (NewChanWriter_of_flag R s hf).1⟩
  · have hb : s.wc.Buffer = false := by
      cases h : s.wc.Buffer
      · rfl
      · exact absurd (Or.inl h) hf
    have hc : s.wc.Compress = false := by
      cases h : s.wc.Compress
      · rfl
      · exact absurd (Or.inr h) hf
    by_cases hsize : s.wc.ChanSize < 0 ∨ (R.maxChanCap : Int) < s.wc.ChanSize
    · constructor
      · intro _
        exact Or.inr (Or.inr hsize)
      · intro _
        exact ⟨_, (NewChanWriter_of_bad_size R s hb hc hsize).1⟩
    · constructor
      · rintro ⟨msg, hmsg⟩
        cases ha : R.canAllocate s.wc.ChanSize.toNat
        · rw [(NewChanWriter_of_no_memory R s hb hc (by omega) (by omega) ha).1] at hmsg
          exact Result.noConfusion hmsg
        · rw [(NewChanWriter_of_good_size R s hb hc (by omega) (by omega) ha).1] at hmsg
          exact Result.noConfusion hmsg
      · rintro (h | h | h)
        · rw [hb] at h
          exact Bool.noConfusion h
        · rw [hc] at h
          exact Bool.noConfusion h
        · exact absurd h hsize

/-- Witness for C5 as amended: with both flags false and ChanSize 4 the writer is
made over a new channel of capacity 4. -/
theorem NewChanWriter_outcome_example :
    (NewChanWriter exampleRuntime (exampleState (exampleConfig false false 4))).1 =
      Result.ok
        { bWriter := none
          gWriter := none
          dWriter := some (WriterTarget.cWriter { ch := 0 })
          cWriter := some { ch := 0 } } ∧
    (NewChanWriter exampleRuntime (exampleState (exampleConfig false false 4))).2.chans =
      [{ cap := 4, buf := [], closed := false }] :=
  (NewChanWriter_outcome exampleRuntime (exampleState (exampleConfig false false 4))).2.2.2.1 rfl
    rfl (by decide) (by decide) (by decide)

/-- C5, counterexample. With Buffer and Compress both false and ChanSize -1,
NewChanWriter panics while making the channel. -/
theorem NewChanWriter_negative_ChanSize :
    (exampleConfig false false (-1)).Buffer = false ∧
    (exampleConfig false false (-1)).Compress = false ∧
    (NewChanWriter exampleRuntime (exampleState (exampleConfig false false (-1)))).1 =
      Result.panic "makechan: size out of range" := by
  decide

/-! ## ChanWriter.Write -/

theorem length_uvarintAux_pos (fuel n : Nat) : 0 < (uvarintAux fuel n).length := by
  cases fuel with
  | zero => simp [uvarintAux]
  | succ f =>
    unfold uvarintAux
    split <;> simp

/-- A frame is longer than its record, so it is never the record itself. -/
theorem delimitedFrame_ne (data : ByteSlice) : delimitedFrame data ≠ data := by
  intro h
  have hl := congrArg List.length h
  have := length_uvarintAux_pos 9 data.length
  simp only [delimitedFrame, List.length_append] at hl
  omega

/-- On a writer made by NewChanWriter whose channel has room, Write of a message
that serializes to `data` returns nil and appends `data` itself, with no
length prefix, as one element to the channel. -/
theorem ChanWriter_Write_raw {Msg : Type} (Marshal : Msg → Except String ByteSlice)
    (R : Runtime) (s₀ s : IOState) (w : ChanWriter) (c : Chan) (msg : Msg) (data : ByteSlice)
    (hw : (NewChanWriter R s₀).1 = Result.ok w) (hc : s.chans.get? s₀.chans.length = some c)
    (hopen : c.closed = false) (hroom : c.buf.length < c.cap)
    (hdata : Marshal msg = Except.ok data) :
    ChanWriter.Write Marshal s w msg =
      (Result.ok none,
        { s with chans := s.chans.set s₀.chans.length { c with buf := c.buf ++ [data] } }) := by
  have hcw : w.cWriter = some { ch := s₀.chans.length } := by
    by_cases hf : s₀.wc.Buffer = true ∨ s₀.wc.Compress = true
    · rw [(NewChanWriter_of_flag R s₀ hf).1] at hw
      exact Result.noConfusion hw
    · have hb : s₀.wc.Buffer = false := by
        cases h : s₀.wc.Buffer
        · rfl
        · exact absurd (Or.inl h) hf
      have hcp : s₀.wc.Compress = false := by
        cases h : s₀.wc.Compress
        · rfl
        · exact absurd (Or.inr h) hf
      by_cases hsize : s₀.wc.ChanSize < 0 ∨ (R.maxChanCap : Int) < s₀.wc.ChanSize
      · rw [(NewChanWriter_of_bad_size R s₀ hb hcp hsize).1] at hw
        exact Result.noConfusion hw
      · cases ha : R.canAllocate s₀.wc.ChanSize.toNat
        · rw [(NewChanWriter_of_no_memory R s₀ hb hcp (by omega) (by omega) ha).1] at hw
          exact Result.noConfusion hw
        · rw [(NewChanWriter_of_good_size R s₀ hb hcp (by omega) (by omega) ha).1] at hw
          injection hw with hw
          subst hw
          rfl
  simp only [ChanWriter.Write, hdata, hcw, ChanProtoWriter.Write, chanSend, hc]
  simp [hopen, hroom]

/-- C6, the failing input. On the writer made with ChanSize 4, Write of a record
whose serialization is the two bytes 8, 1 returns nil and leaves the channel
holding the single element 8, 1; the length-delimited frame of the record is
2, 8, 1. -/
theorem ChanWriter_Write_unframed :
    (writerOf (NewChanWriter exampleRuntime (exampleState (exampleConfig false false 4)))).map
      (fun ws => (ChanWriter.Write marshalBytes ws.2 ws.1 [8, 1])) =
      some (Result.ok none,
        { wc := { exampleConfig false false 4 with MemBufferSize := 10485760 }
          chans := [{ cap := 4, buf := [[8, 1]], closed := false }] }) ∧
    delimitedFrame [8, 1] = [2, 8, 1] := by
  decide

end Netcap
